import Mathlib

/-!
Verification development for the attendance-tracking bot repository
(src/utils/reports.py, src/utils/exports.py, src/main_aiogram.py,
src/database.py).

The Python source is shallowly embedded: Python floats are modelled as
rationals (ℚ) where only arithmetic and comparisons on exactly
representable values matter, and as reals (ℝ) where values flow through
trigonometric functions; Python `Optional` values become `Option`;
functions that may raise inside a `try` block are modelled so that a
raised exception aborts the remaining statements of the block while
keeping the mutations already performed.
-/

namespace Tgg

/-- Truthiness of a Python `Optional[str]`: `None` and the empty string
are falsy, every other string is truthy. -/
def pyTruthy : Option String → Bool
  | none => false
  | some s => s ≠ ""

/-- Numeric value of an ASCII digit character. -/
def digitVal (c : Char) : Nat := c.toNat - 48

/-- Python strings are sequences of code points; throughout this
development their manipulation is modelled on `List Char` (Lean's own
`String` functions are kept only at value boundaries). Strip leading and
trailing whitespace, as Python `str.strip()` does. -/
def pyStrip (cs : List Char) : List Char :=
  ((cs.dropWhile Char.isWhitespace).reverse.dropWhile Char.isWhitespace).reverse

/-- Decimal value of a digit list. -/
def digitsVal (ds : List Char) : Nat :=
  ds.foldl (fun n c => n * 10 + digitVal c) 0

/-- Python `int(s)` restricted to the shapes that occur in this program:
optional surrounding whitespace, an optional sign, then one or more ASCII
digits; anything else raises `ValueError`, modelled as `none`.
(Underscore separators and non-ASCII digits, which CPython would also
accept, are not modelled; no caller produces them.) -/
def pyIntOfChars (cs : List Char) : Option Int :=
  let t := pyStrip cs
  let (neg, ds) :=
    match t with
    | '-' :: rest => (true, rest)
    | '+' :: rest => (false, rest)
    | _ => (false, t)
  if ds.length > 0 && ds.all Char.isDigit then
    some (if neg then -(digitsVal ds : Int) else (digitsVal ds : Int))
  else
    none

/-- Python `int(s)` on a string value. -/
def pyInt (s : String) : Option Int := pyIntOfChars s.toList

/-- Python `s.split(sep)` for a one-character separator: split at every
occurrence, keeping empty pieces (so `"a::b".split(":") = ["a","","b"]`
and `"".split(":") = [""]`). -/
def pySplit (sep : Char) : List Char → List (List Char)
  | [] => [[]]
  | c :: rest =>
    let r := pySplit sep rest
    if c = sep then [] :: r
    else
      match r with
      | h :: t => (c :: h) :: t
      | [] => [[c]]

/-- One numeric field of `datetime.strptime`: greedily take two digits if
their value is at most `hi`, otherwise one digit (mirroring the regexes
CPython compiles for `%H`, `%M` and `%S`). Returns the value and the
unconsumed characters. -/
def takeTimeField (hi : Nat) : List Char → Option (Nat × List Char)
  | c1 :: c2 :: rest =>
    if c1.isDigit && c2.isDigit && digitVal c1 * 10 + digitVal c2 ≤ hi then
      some (digitVal c1 * 10 + digitVal c2, rest)
    else if c1.isDigit then some (digitVal c1, c2 :: rest)
    else none
  | [c1] => if c1.isDigit then some (digitVal c1, []) else none
  | [] => none

/-- Consume one expected literal character. -/
def takeColon : List Char → Option (List Char)
  | c :: rest => if c = ':' then some rest else none
  | [] => none

/-- `datetime.strptime(s, "%H:%M:%S")`, reduced to the seconds elapsed
since midnight (the only use the program makes of the parsed value);
the whole string must be consumed. `%S` accepts values up to 61. -/
def strptimeHMS (s : List Char) : Option Nat :=
  match takeTimeField 23 s with
  | none => none
  | some (h, r1) =>
    match takeColon r1 with
    | none => none
    | some r2 =>
      match takeTimeField 59 r2 with
      | none => none
      | some (m, r3) =>
        match takeColon r3 with
        | none => none
        | some r4 =>
          match takeTimeField 61 r4 with
          | none => none
          | some (sec, r5) => if r5 = [] then some (h * 3600 + m * 60 + sec) else none

/-- `datetime.strptime(s, "%H:%M")`, reduced to seconds since midnight. -/
def strptimeHM (s : List Char) : Option Nat :=
  match takeTimeField 23 s with
  | none => none
  | some (h, r1) =>
    match takeColon r1 with
    | none => none
    | some r2 =>
      match takeTimeField 59 r2 with
      | none => none
      | some (m, r3) => if r3 = [] then some (h * 3600 + m * 60) else none

/-- The nested try/except in `check_rules_violation` (src/utils/reports.py):
parse with format HH:MM:SS, falling back to HH:MM, else `None`. -/
def parseTimePy (s : String) : Option Nat :=
  match strptimeHMS s.toList with
  | some v => some v
  | none => strptimeHM s.toList

/-- Round half to even at the given rational (used at one decimal).
Python's `format(x, ".1f")` rounds the underlying binary float half to
even; on the exactly representable values this program formats the two
agree. -/
def roundHalfEven (x : ℚ) : ℤ :=
  let f := Int.floor x
  let r := x - f
  if r < 1 / 2 then f else if 1 / 2 < r then f + 1 else if 2 ∣ f then f else f + 1

/-- Python `f"{x:.1f}"` on a rational. -/
def fmtFixed1 (q : ℚ) : String :=
  let n := roundHalfEven (q * 10)
  let m := n.natAbs
  let s := toString (m / 10) ++ "." ++ toString (m % 10)
  if n < 0 then "-" ++ s else s

/-- Python `f"{x}"` for the threshold values interpolated into violation
messages. Integral values are rendered without a decimal point (the live
call sites pass Python ints); non-integral values fall back to one
decimal. -/
def ratStr (q : ℚ) : String :=
  if q.den = 1 then toString q.num else fmtFixed1 q

/-- The fixed violation text of the inactive branch. -/
def inactiveMsg : String := "Kursdan çıxarılıb"

/-- The fixed violation text for an absent check-in. -/
def noCheckinMsg : String := "Giriş yoxdur"

/-- Violation text for a check-in at or after the deadline hour. -/
def lateGirisMsg (deadline : Int) (t : String) : String :=
  "Giriş " ++ toString deadline ++ ":00-dan sonra (" ++ t ++ ")"

/-- Violation text for a check-out at or after the deadline hour. -/
def lateCixisMsg (deadline : Int) (t : String) : String :=
  "Çıxış " ++ toString deadline ++ ":00-dan sonra (" ++ t ++ ")"

/-- Violation text for a measured duration below the minimum. -/
def minDurMsg (dur minh : ℚ) : String :=
  "Minimum iş müddəti pozulub (" ++ fmtFixed1 dur ++ " saat < " ++ ratStr minh ++ " saat)"

/-- Violation text for a check-out farther than the tolerance from the
check-in point; the distance is already truncated to a whole metre. -/
def diffPlaceMsg (distInt : Int) (tol : ℚ) : String :=
  "Çıxış fərqli yerdə (" ++ toString distInt ++ "m > " ++ ratStr tol ++ "m)"

/-- Modelled from the spec: the two-argument arctangent used by the
haversine formula of §4.1 (utils/distance.py is not in the tree; only
its call sites are). Standard mathematical atan2. -/
noncomputable def atan2 (y x : ℝ) : ℝ :=
  if 0 < x then Real.arctan (y / x)
  else if x < 0 ∧ 0 ≤ y then Real.arctan (y / x) + Real.pi
  else if x < 0 ∧ y < 0 then Real.arctan (y / x) - Real.pi
  else if x = 0 ∧ 0 < y then Real.pi / 2
  else if x = 0 ∧ y < 0 then -(Real.pi / 2)
  else 0

/-- Modelled from the spec: `haversine_m(lat1, lon1, lat2, lon2)` of the
missing utils/distance.py, following §4.1 of the spec word for word:
Earth radius 6,371,000 m, `a = sin²(Δφ/2) + cosφ1·cosφ2·sin²(Δλ/2)`,
`c = 2·atan2(√a, √(1−a))`, `d = R·c`, angles converted from degrees to
radians. -/
noncomputable def haversine_m (lat1 lon1 lat2 lon2 : ℝ) : ℝ :=
  let phi1 := lat1 * Real.pi / 180
  let phi2 := lat2 * Real.pi / 180
  let dphi := (lat2 - lat1) * Real.pi / 180
  let dlam := (lon2 - lon1) * Real.pi / 180
  let a := Real.sin (dphi / 2) ^ 2 + Real.cos phi1 * Real.cos phi2 * Real.sin (dlam / 2) ^ 2
  let c := 2 * atan2 (Real.sqrt a) (Real.sqrt (1 - a))
  6371000 * c

/-- Lines 94-97 of src/utils/reports.py: if both coordinate pairs are
present, compare their haversine distance with the tolerance. The Python
`int(dist)` truncation is `Int.floor` here (the distance is nonnegative). -/
noncomputable def locationPart (glat glon clat clon : Option ℝ) (tol : ℚ) : List String :=
  match glat, glon, clat, clon with
  | some a, some b, some x, some y =>
    let dist := haversine_m a b x y
    if dist > (tol : ℝ) then [diffPlaceMsg (Int.floor dist) tol] else []
  | _, _, _, _ => []

/-- Lines 71-91 of src/utils/reports.py: parse both times and, if both
parse, flag a duration below the minimum. -/
def durationPart (g c : String) (minh : ℚ) : List String :=
  match parseTimePy g, parseTimePy c with
  | some gs, some cs =>
    let dur : ℚ := ((cs : ℚ) - (gs : ℚ)) / 3600
    if dur < minh then [minDurMsg dur minh] else []
  | _, _ => []

/-- Lines 62-97 of src/utils/reports.py (the `if cixis_time:` section).
`v` is the violation list accumulated so far; a `ValueError` raised by
`int(...)` on the check-out hour aborts the rest of the try block,
leaving `v` as it stands. -/
noncomputable def cixisPart (v : List String) (g : String) (cixis : Option String)
    (checkout_deadline : Int) (minh : ℚ)
    (glat glon clat clon : Option ℝ) (tol : ℚ) : List String :=
  if pyTruthy cixis then
    let c := cixis.getD ""
    match pySplit ':' c.toList with
    | p0 :: _ :: _ =>
      match pyIntOfChars p0 with
      | none => v
      | some ch =>
        (v ++ (if ch ≥ checkout_deadline then [lateCixisMsg checkout_deadline c] else []))
          ++ durationPart g c minh ++ locationPart glat glon clat clon tol
    | _ => v ++ durationPart g c minh ++ locationPart glat glon clat clon tol
  else v

/-- Lines 51-103 of src/utils/reports.py: the whole try block, producing
the accumulated violation list (a `ValueError` from `int(...)` on the
check-in hour is caught by the outer `except` with the list still empty). -/
noncomputable def tryViolations (g : String) (cixis : Option String)
    (checkin_deadline checkout_deadline : Int) (minh : ℚ)
    (glat glon clat clon : Option ℝ) (tol : ℚ) : List String :=
  match pySplit ':' g.toList with
  | p0 :: _ :: _ =>
    match pyIntOfChars p0 with
    | none => []
    | some gh =>
      cixisPart (if gh ≥ checkin_deadline then [lateGirisMsg checkin_deadline g] else [])
        g cixis checkout_deadline minh glat glon clat clon tol
  | _ => cixisPart [] g cixis checkout_deadline minh glat glon clat clon tol

/-- `check_rules_violation` of src/utils/reports.py, lines 19-108.
Parameter order and defaults follow the source (`is_active = 1`,
deadlines 11/19, minimum 3.0 h, workplace 40.4093/49.8671, radius 100 m,
tolerance 50 m — the workplace parameters are accepted but never
evaluated, exactly as in the source). Returns (status, violations). -/
noncomputable def check_rules_violation (giris_time cixis_time : Option String)
    (giris_lat giris_lon cixis_lat cixis_lon : Option ℝ)
    (is_active : Int) (checkin_deadline checkout_deadline : Int)
    (min_work_hours : ℚ) (workplace_lat workplace_lon workplace_radius : ℝ)
    (location_tolerance : ℚ) : String × List String :=
  if is_active = 0 then ("inactive", [inactiveMsg])
  else if pyTruthy giris_time = false then ("violation", [noCheckinMsg])
  else
    let v : List String :=
      tryViolations (giris_time.getD "") cixis_time checkin_deadline checkout_deadline
        min_work_hours giris_lat giris_lon cixis_lat cixis_lon location_tolerance
    if v = [] then ("ok", []) else ("violation", v)

/-- The ten operator prefixes accepted by the first three branches of
`validate_and_normalize_phone` (src/main_aiogram.py lines 907, 916, 924). -/
def opPrefixes10 : List (List Char) :=
  [['5','0'], ['5','1'], ['5','5'], ['6','0'], ['7','0'],
   ['7','7'], ['1','0'], ['1','2'], ['9','0'], ['9','9']]

/-- The eight operator codes accepted by the `0`-prefixed branch
(src/main_aiogram.py line 932). -/
def opPrefixes8 : List (List Char) :=
  [['5','0'], ['5','1'], ['5','5'], ['6','0'], ['7','0'], ['7','7'], ['1','0'], ['1','2']]

/-- Python `s.startswith(tuple)`. -/
def startsWithAny (t : List Char) (ps : List (List Char)) : Bool :=
  ps.any (fun p => p.isPrefixOf t)

/-- Line 903 of src/main_aiogram.py: remove spaces, dashes and
parentheses (four successive single-character `str.replace` calls, which
amount to filtering those characters out). -/
def cleanPhone (cs : List Char) : List Char :=
  cs.filter (fun c => !(c == ' ' || c == '-' || c == '(' || c == ')'))

/-- Retry-prompt text shown for an empty phone entry. -/
def phoneErrEmpty : String :=
  "Telefon nömrəsi boş ola bilməz. Zəhmət olmasa telefon nömrənizi daxil edin."

/-- Retry-prompt text shown when a recognized shape fails validation. -/
def phoneErrInvalid : String :=
  "Telefon nömrəsi düzgün deyil. Nümunə: 501234567 və ya 0501234567"

/-- Retry-prompt text shown when no shape is recognized at all. -/
def phoneErrFormat : String :=
  "Telefon nömrəsi düzgün formatda deyil. Nümunə: 501234567 və ya 0501234567"

/-- `validate_and_normalize_phone` of src/main_aiogram.py, lines 891-937.
Returns (is_valid, normalized phone or error message). -/
def validate_and_normalize_phone (s : String) : Bool × String :=
  let phone := pyStrip s.toList
  if phone = [] then (false, phoneErrEmpty)
  else
    let clean := cleanPhone phone
    if clean.length = 9 ∧ clean.all Char.isDigit then
      if startsWithAny clean opPrefixes10 then (true, "+994" ++ String.mk clean)
      else (false, phoneErrInvalid)
    else if ['+','9','9','4'].isPrefixOf clean then
      let digits := clean.drop 4
      if digits.length = 9 ∧ digits.all Char.isDigit ∧ startsWithAny digits opPrefixes10 then
        (true, "+994" ++ String.mk digits)
      else (false, phoneErrInvalid)
    else if ['9','9','4'].isPrefixOf clean then
      let digits := clean.drop 3
      if digits.length = 9 ∧ digits.all Char.isDigit ∧ startsWithAny digits opPrefixes10 then
        (true, "+994" ++ String.mk digits)
      else (false, phoneErrInvalid)
    else if ['0'].isPrefixOf clean then
      if clean.length = 10 ∧ clean.all Char.isDigit
          ∧ (clean.drop 1).take 2 ∈ opPrefixes8 then
        (true, "+994" ++ String.mk (clean.drop 1))
      else (false, phoneErrInvalid)
    else (false, phoneErrFormat)

/-- The phone-acceptance rule as the spec states it, with the one
amendment the code forces: in the `0`-prefixed domestic case the operator
whitelist is the eight codes of `opPrefixes8` (the code's `0` branch does
not accept 90/99). Returns the normalized number on acceptance, `none`
on rejection; written from the spec's four input shapes, for comparison
with the source-derived `validate_and_normalize_phone`. -/
def phoneSpec (s : String) : Option String :=
  let clean := cleanPhone (pyStrip s.toList)
  if clean.length = 9 ∧ clean.all Char.isDigit ∧ startsWithAny clean opPrefixes10 then
    some ("+994" ++ String.mk clean)
  else if ['+','9','9','4'].isPrefixOf clean ∧ (clean.drop 4).length = 9
      ∧ (clean.drop 4).all Char.isDigit ∧ startsWithAny (clean.drop 4) opPrefixes10 then
    some ("+994" ++ String.mk (clean.drop 4))
  else if ['9','9','4'].isPrefixOf clean ∧ (clean.drop 3).length = 9
      ∧ (clean.drop 3).all Char.isDigit ∧ startsWithAny (clean.drop 3) opPrefixes10 then
    some ("+994" ++ String.mk (clean.drop 3))
  else if ['0'].isPrefixOf clean ∧ clean.length = 10 ∧ clean.all Char.isDigit
      ∧ startsWithAny (clean.drop 1) opPrefixes8 then
    some ("+994" ++ String.mk (clean.drop 1))
  else none

/-- One row dictionary passed to `generate_csv_report`
(src/utils/exports.py): `none` models a key that is missing or holds
`None`. The coordinate fields hold the text the caller's f-string would
interpolate (their numeric rendering is not modelled). -/
structure CsvRow where
  date : Option String
  fin : Option String
  name : Option String
  seriya : Option String
  phone_number : Option String
  code : Option String
  profession : Option String
  giris_time : Option String
  cixis_time : Option String
  gps_coords : Option String
  address : Option String
  maps_link : Option String
  start_lat : Option String
  start_lon : Option String
  end_lat : Option String
  end_lon : Option String
  giris_loc : Option String
  cixis_loc : Option String
  status : Option String
  violations : Option String

/-- The CSV text produced for one file: whether the encoding writes a
leading byte-order mark, and the list of written rows (each a list of
cell values). -/
structure CsvFile where
  bom : Bool
  rows : List (List String)

/-- Python `x.strip().split(maxsplit=1)` on the name cell (lines 45-47 of
src/utils/exports.py): at most two pieces, empty list for an all-blank
name. -/
def splitName (cs : List Char) : List (List Char) :=
  let t := pyStrip cs
  if t = [] then []
  else
    let first := t.takeWhile (fun c => !c.isWhitespace)
    let rest := (t.drop first.length).dropWhile Char.isWhitespace
    if rest = [] then [first] else [first, rest]

/-- Python truthiness of an optional string cell followed by `or ''`. -/
def orEmpty (v : Option String) : String :=
  match v with
  | none => ""
  | some s => s

/-- Lines 40-85 of src/utils/exports.py: the 15 cell values written for
one data row. -/
def csvRowCells (r : CsvRow) : List String :=
  let date := orEmpty r.date
  let fin := orEmpty r.fin
  let name := orEmpty r.name
  let name_parts := splitName name.toList
  let ad := match name_parts with
    | p :: _ => String.mk p
    | [] => name
  let soyad := match name_parts with
    | _ :: p :: _ => String.mk p
    | _ => ""
  let seriya := orEmpty r.seriya
  let phone := orEmpty r.phone_number
  let code := orEmpty r.code
  let profession := orEmpty r.profession
  let giris_time := orEmpty r.giris_time
  let cixis_time := orEmpty r.cixis_time
  let gps0 := orEmpty r.gps_coords
  let address0 := orEmpty r.address
  let maps0 := orEmpty r.maps_link
  let (gps_coords, maps_link) :=
    if gps0 = "" then
      match r.start_lat, r.start_lon with
      | some la, some lo =>
        (la ++ ", " ++ lo,
         if maps0 = "" then "https://maps.google.com/?q=" ++ la ++ "," ++ lo else maps0)
      | _, _ =>
        match r.end_lat, r.end_lon with
        | some la, some lo =>
          (la ++ ", " ++ lo,
           if maps0 = "" then "https://maps.google.com/?q=" ++ la ++ "," ++ lo else maps0)
        | _, _ => (gps0, maps0)
    else (gps0, maps0)
  let address :=
    if address0 = "" then
      let giris_loc := String.mk (pyStrip (orEmpty r.giris_loc).toList)
      let cixis_loc := String.mk (pyStrip (orEmpty r.cixis_loc).toList)
      if giris_loc ≠ "" then giris_loc else if cixis_loc ≠ "" then cixis_loc else ""
    else address0
  let status := orEmpty r.status
  let violations := orEmpty r.violations
  [date, fin, ad, soyad, seriya, phone, code, profession,
   giris_time, cixis_time, gps_coords, address, maps_link, status, violations]

/-- The header row written for an empty dataset
(src/utils/exports.py lines 19-23): fourteen literals. -/
def csvHeadersEmptyCase : List String :=
  ["Tarix", "FIN Kodu", "Ad", "Soyad", "Vəsiqə Seriya", "Telefon",
   "Qrup Kodu", "Peşə", "Giriş Saatı", "Çıxış Saatı",
   "GPS Koordinatları", "Lokasiya", "Status", "Qayda Pozuntuları"]

/-- The header row written for a non-empty dataset
(src/utils/exports.py lines 30-34): fifteen literals. -/
def csvHeadersMainCase : List String :=
  ["Tarix", "FIN Kodu", "Ad", "Soyad", "Vəsiqə Seriya", "Telefon",
   "Qrup Kodu", "Peşə", "Giriş Saatı", "Çıxış Saatı",
   "GPS Koordinatları", "Lokasiya", "Xəritə Linki", "Status", "Qayda Pozuntuları"]

/-- `generate_csv_report` of src/utils/exports.py, lines 13-87, reduced
to the rows it writes: the file is opened with encoding utf-8-sig (a
leading byte-order mark) in both branches; an empty dataset gets only a
header row, a non-empty dataset gets a header row and one row per entry.
(File-path handling and the csv writer's quoting, which no header literal
needs, are outside the model.) -/
def generate_csv_report (report_data : List CsvRow) : CsvFile :=
  if report_data.isEmpty then
    { bom := true, rows := [csvHeadersEmptyCase] }
  else
    { bom := true, rows := csvHeadersMainCase :: report_data.map csvRowCells }

/-- One row of the legacy `users` table (src/database.py schema lines
268-280; the `registered_at` column, which no modelled operation reads or
writes, is omitted). SQLite stores is_active as 0/1 and Postgres as a
boolean; both normalize to `Bool`. -/
structure UserRow where
  id : Int
  telegram_id : Int
  name : String
  fin : String
  seriya : String
  code : String
  phone_number : Option String
  is_active : Bool

/-- One row of the legacy `attendance` table (schema lines 299-311; `id`
omitted — no modelled operation reads it). -/
structure AttendanceRow where
  user_id : Int
  date : String
  giris_time : Option String
  cixis_time : Option String
  giris_loc : Option String
  cixis_loc : Option String

/-- One row of the `registrations` table (schema lines 725-735;
`id`/`created_at` omitted). -/
structure RegRow where
  user_id : Int
  date : String
  profession : String
  code : String

/-- One row of the GPS `users2` table (schema lines 1116-1121). -/
structure User2Row where
  id : Int
  telegram_id : Int
  full_name : String

/-- One row of the GPS `sessions` table (schema lines 1144-1157).
Timestamps stay the stored text; coordinates are reals. -/
structure SessionRow where
  id : Int
  user_id : Int
  start_time : String
  start_lat : ℝ
  start_lon : ℝ
  end_time : Option String
  end_lat : Option ℝ
  end_lon : Option ℝ
  duration_min : Option Int
  distance_m : Option ℝ

/-- The database state: the five tables the modelled operations touch,
plus the integer-primary-key allocators (SQLite hands out fresh row ids;
the exact id values only matter through row linkage). -/
structure DB where
  users : List UserRow
  attendance : List AttendanceRow
  registrations : List RegRow
  users2 : List User2Row
  sessions : List SessionRow
  next_user_id : Int
  next_session_id : Int

/-- `get_user_by_telegram_id` of src/database.py lines 408-434: first
row whose telegram_id matches (the column is UNIQUE, so at most one
exists in a well-formed database). -/
def get_user_by_telegram_id (db : DB) (tgid : Int) : Option UserRow :=
  db.users.find? (fun u => u.telegram_id == tgid)

/-- `upsert_user_profile` of src/database.py lines 437-469: try INSERT
(is_active defaulting to true); on a duplicate telegram_id update name,
fin, seriya, code and phone_number of the existing row — is_active is
not touched. The Postgres ON CONFLICT branch updates the same five
columns. -/
def upsert_user_profile (db : DB) (tgid : Int) (name fin code seriya phone_number : String) :
    DB :=
  if db.users.any (fun u => u.telegram_id == tgid) then
    { db with users := db.users.map (fun u =>
        if u.telegram_id == tgid then
          { u with name := name, fin := fin, seriya := seriya, code := code,
                   phone_number := some phone_number }
        else u) }
  else
    { db with
      users := db.users ++
        [{ id := db.next_user_id, telegram_id := tgid, name := name, fin := fin,
           seriya := seriya, code := code, phone_number := some phone_number,
           is_active := true }],
      next_user_id := db.next_user_id + 1 }

/-- `has_registration` of src/database.py lines 743-752. -/
def has_registration (db : DB) (user_id : Int) (date profession code : String) : Bool :=
  db.registrations.any (fun r =>
    r.user_id == user_id && r.date == date && r.profession == profession && r.code == code)

/-- `add_registration` of src/database.py lines 755-767: INSERT, with the
IntegrityError of the UNIQUE(user_id, date, code, profession) constraint
converted into a `false` return. -/
def add_registration (db : DB) (user_id : Int) (date profession code : String) : DB × Bool :=
  if db.registrations.any (fun r =>
      r.user_id == user_id && r.date == date && r.code == code && r.profession == profession) then
    (db, false)
  else
    ({ db with registrations := db.registrations ++
        [{ user_id := user_id, date := date, profession := profession, code := code }] },
     true)

/-- Lines 964-978 of src/main_aiogram.py (`reg_enter_phone_number` after
a valid phone): upsert the profile, fetch the row back, and either report
a same-day duplicate for the same profession+code or write the
registration-log row. (The fetched row always exists and carries an
integer id, so the guard on line 972 is the `some` branch.) -/
inductive RegOutcome where
  | alreadyRegistered
  | completed
  deriving DecidableEq

/-- The registration-completion step, returning the new database state
and what the user is told. -/
def reg_finalize (db : DB) (tgid : Int) (name fin seriya phone code profession today : String) :
    DB × RegOutcome :=
  let db1 := upsert_user_profile db tgid name fin code seriya phone
  match get_user_by_telegram_id db1 tgid with
  | some prof =>
    if has_registration db1 prof.id today profession code then
      (db1, RegOutcome.alreadyRegistered)
    else
      ((add_registration db1 prof.id today profession code).1, RegOutcome.completed)
  | none => (db1, RegOutcome.completed)

/-- Lines 1230-1240 of src/database.py (`delete_user_all`, first half):
if a legacy users row with this telegram_id exists, delete that user's
attendance rows, registration rows and the users row itself, counting the
affected rows. -/
def delete_legacy_phase (db : DB) (tgid : Int) : DB × Nat :=
  match db.users.find? (fun u => u.telegram_id == tgid) with
  | some u =>
    let attRemoved := (db.attendance.filter (fun a => a.user_id == u.id)).length
    let regRemoved := (db.registrations.filter (fun r => r.user_id == u.id)).length
    let userRemoved := (db.users.filter (fun x => x.id == u.id)).length
    ({ db with
        attendance := db.attendance.filter (fun a => !(a.user_id == u.id)),
        registrations := db.registrations.filter (fun r => !(r.user_id == u.id)),
        users := db.users.filter (fun x => !(x.id == u.id)) },
     attRemoved + regRemoved + userRemoved)
  | none => (db, 0)

/-- Lines 1241-1249 of src/database.py (`delete_user_all`, second half):
if a GPS users2 row with this telegram_id exists, delete that user's
sessions and the users2 row itself, counting the affected rows. -/
def delete_gps_phase (db : DB) (tgid : Int) : DB × Nat :=
  match db.users2.find? (fun u => u.telegram_id == tgid) with
  | some u2 =>
    let sessRemoved := (db.sessions.filter (fun s => s.user_id == u2.id)).length
    let user2Removed := (db.users2.filter (fun x => x.id == u2.id)).length
    ({ db with
        sessions := db.sessions.filter (fun s => !(s.user_id == u2.id)),
        users2 := db.users2.filter (fun x => !(x.id == u2.id)) },
     sessRemoved + user2Removed)
  | none => (db, 0)

/-- `delete_user_all` of src/database.py lines 1222-1252: the legacy
phase, then the GPS phase on its result; returns whether any row was
affected. -/
def delete_user_all (db : DB) (tgid : Int) : DB × Bool :=
  let r1 := delete_legacy_phase db tgid
  let r2 := delete_gps_phase r1.1 tgid
  (r2.1, decide (0 < r1.2 + r2.2))

/-- The row with the greatest id, modelling ORDER BY id DESC LIMIT 1. -/
def maxById : List SessionRow → Option SessionRow
  | [] => none
  | s :: rest =>
    match maxById rest with
    | none => some s
    | some t => if s.id > t.id then some s else some t

/-- `get_open_session` of src/database.py lines 1208-1219: latest session
of the user with no end_time. -/
def get_open_session (db : DB) (user_id : Int) : Option SessionRow :=
  maxById (db.sessions.filter (fun s => s.user_id == user_id && s.end_time.isNone))

/-- `get_user_session_on_date` of src/database.py lines 1311-1338 (SQLite
branch): latest session of the user whose start_time begins with the ISO
date (substr(start_time, 1, 10)). -/
def get_user_session_on_date (db : DB) (user_id : Int) (iso_date : String) : Option SessionRow :=
  maxById (db.sessions.filter (fun s =>
    s.user_id == user_id && s.start_time.toList.take 10 == iso_date.toList))

/-- `close_session` of src/database.py lines 1255-1269. -/
def close_session (db : DB) (session_id : Int) (end_time : String) (end_lat end_lon : ℝ)
    (duration_min : Int) (distance_m : ℝ) : DB :=
  { db with sessions := db.sessions.map (fun s =>
      if s.id == session_id then
        { s with end_time := some end_time, end_lat := some end_lat, end_lon := some end_lon,
                 duration_min := some duration_min, distance_m := some distance_m }
      else s) }

/-- What the checkout location handler does, as seen by the user and the
administrator: each rejection constructor is one of the handler's reply
paths (the geofence rejection carries the measured distance it reports),
and `closed` is the successful path that invokes `close_session`. -/
inductive CheckoutResult where
  | gpsInvalid
  | noOpenSession
  | alreadyClosed
  | pastDeadline
  | belowMinDuration
  | outsideWorkplace (dist : ℝ)
  | closed (sessionId : Int)

/-- Lines 3152-3285 of src/main_aiogram.py: the `action == "checkout"`
branch of `handle_location`. `d` is the distance function imported from
the missing utils/distance.py (see `haversine_m`); `parse_dt` models
`parse_dt_to_baku` reduced to seconds (timestamp parsing and timezone
conversion are outside the claims); `now` is the current time in seconds
and `nowHour` its hour. The constants of the live engine are passed as
the configuration parameters they are read from: checkout deadline 19,
minimum 6 h, workplace 40.4093/49.8671, radius min(env, 300). -/
noncomputable def handle_checkout (d : ℝ → ℝ → ℝ → ℝ → ℝ) (db : DB) (uid : Int) (today : String)
    (nowHour : Int) (now : ℚ) (parse_dt : String → ℚ) (nowIso : String) (lat lon : ℝ)
    (checkout_deadline : Int) (min_work_hours : ℚ) (wlat wlon wradius : ℝ) :
    DB × CheckoutResult :=
  if lat = 0 ∧ lon = 0 then (db, CheckoutResult.gpsInvalid)
  else
    match get_open_session db uid with
    | none => (db, CheckoutResult.noOpenSession)
    | some sess =>
      if (match get_user_session_on_date db uid today with
          | some ts => pyTruthy ts.end_time
          | none => false) then (db, CheckoutResult.alreadyClosed)
      else
        let start_time := parse_dt sess.start_time
        let duration_hours : ℚ := (now - start_time) / 3600
        let duration_min : Int := max 0 (Int.floor ((now - start_time) / 60))
        let dist_m := d sess.start_lat sess.start_lon lat lon
        if nowHour ≥ checkout_deadline then (db, CheckoutResult.pastDeadline)
        else if duration_hours < min_work_hours then (db, CheckoutResult.belowMinDuration)
        else
          let dist_from_workplace := d wlat wlon lat lon
          if dist_from_workplace > wradius then
            (db, CheckoutResult.outsideWorkplace dist_from_workplace)
          else
            (close_session db sess.id nowIso lat lon duration_min dist_m,
             CheckoutResult.closed sess.id)

/-- TG_CHUNK_LIMIT of src/main_aiogram.py line 103. -/
def TG_CHUNK_LIMIT : Nat := 3500

/-- Python `chunk.rfind(newline)`: index of the last newline, or `none`
where the source uses -1. -/
def rfindNl : List Char → Option Nat
  | [] => none
  | c :: rest =>
    match rfindNl rest with
    | some i => some (i + 1)
    | none => if c = '\n' then some 0 else none

/-- The loop of `chunk_send` (src/main_aiogram.py lines 258-267), with a
fuel argument bounding the number of iterations; every iteration removes
at least one character, so `s.length` fuel is always enough (see
`chunk_send`). Each round takes the first TG_CHUNK_LIMIT characters, cuts
at the last newline there (or at the window's end when it has none),
yields the text before the cut and continues after it, stripping leading
newlines. -/
def chunkSendAux : Nat → List Char → List (List Char)
  | 0, _ => []
  | fuel + 1, s =>
    if s = [] then []
    else
      let chunk := s.take TG_CHUNK_LIMIT
      let cut :=
        match rfindNl chunk with
        | none => chunk.length
        | some i => i
      s.take cut :: chunkSendAux fuel ((s.drop cut).dropWhile (fun c => c = '\n'))

/-- `chunk_send` of src/main_aiogram.py lines 258-267, as the list of
yielded messages. -/
def chunk_send (s : List Char) : List (List Char) :=
  chunkSendAux s.length s

/-- The one-row database used to witness the frame theorems. -/
def sampleUser : UserRow :=
  { id := 1, telegram_id := 7, name := "a", fin := "b", seriya := "c",
    code := "d", phone_number := none, is_active := false }

/-- A concrete database with one legacy user and nothing else. -/
def sampleDB : DB :=
  { users := [sampleUser], attendance := [], registrations := [], users2 := [],
    sessions := [], next_user_id := 2, next_session_id := 1 }

/-- The haversine distance between a point and itself is zero (the spec
notes: returns 0 for identical points). -/
theorem haversine_m_self (lat lon : ℝ) : haversine_m lat lon lat lon = 0 := by
  unfold haversine_m atan2
  simp [Real.sqrt_zero, Real.sqrt_one, Real.arctan_zero]

/-- With identical endpoints the location rule never fires (for a
nonnegative tolerance). -/
theorem locationPart_self (a b : ℝ) (tol : ℚ) (h : 0 ≤ tol) :
    locationPart (some a) (some b) (some a) (some b) tol = [] := by
  simp only [locationPart, haversine_m_self]
  rw [if_neg]
  push_neg
  exact_mod_cast h

/-- C1: check-in "09:00:00", check-out "14:30:00", identical coordinates,
active, deadlines 11/19, tolerance 50 m: with minimum duration 6 h the
result is status "violation" with exactly the one violation citing the
measured 5.5 h; with minimum duration 3 h the same inputs give status
"ok" with an empty violation list. -/
theorem claim_C1_min_duration (glat glon : ℝ) :
    check_rules_violation (some "09:00:00") (some "14:30:00")
        (some glat) (some glon) (some glat) (some glon)
        1 11 19 6 40.4093 49.8671 100 50
      = ("violation", ["Minimum iş müddəti pozulub (5.5 saat < 6 saat)"])
    ∧ check_rules_violation (some "09:00:00") (some "14:30:00")
        (some glat) (some glon) (some glat) (some glon)
        1 11 19 3 40.4093 49.8671 100 50
      = ("ok", []) := by
  have hloc := locationPart_self glat glon 50 (by norm_num)
  have hg : parseTimePy "09:00:00" = some 32400 := by decide
  have hc : parseTimePy "14:30:00" = some 52200 := by decide
  have hmsg : minDurMsg ((((52200 : ℕ) : ℚ) - ((32400 : ℕ) : ℚ)) / 3600) 6
      = "Minimum iş müddəti pozulub (5.5 saat < 6 saat)" := by
    have hq : (((52200 : ℕ) : ℚ) - ((32400 : ℕ) : ℚ)) / 3600 = 11 / 2 := by norm_num
    have h1 : fmtFixed1 ((11 : ℚ) / 2) = "5.5" := by
      have h : roundHalfEven ((11 : ℚ) / 2 * 10) = 55 := by norm_num [roundHalfEven]
      simp only [fmtFixed1, h]
      decide
    have h2 : ratStr 6 = "6" := by
      simp only [ratStr]
      norm_num
      decide
    rw [hq]
    simp only [minDurMsg, h1, h2]
    decide
  have hdur6 : durationPart "09:00:00" "14:30:00" 6
      = ["Minimum iş müddəti pozulub (5.5 saat < 6 saat)"] := by
    simp only [durationPart, hg, hc]
    rw [if_pos (by norm_num)]
    rw [hmsg]
  have hdur3 : durationPart "09:00:00" "14:30:00" 3 = [] := by
    simp only [durationPart, hg, hc]
    rw [if_neg (by norm_num)]
  constructor <;>
    simp only [check_rules_violation, tryViolations, cixisPart, Option.getD,
      show pySplit ':' ("09:00:00" : String).toList = [['0','9'], ['0','0'], ['0','0']] from by decide,
      show pySplit ':' ("14:30:00" : String).toList = [['1','4'], ['3','0'], ['0','0']] from by decide,
      show pyIntOfChars ['0','9'] = some 9 from by decide,
      show pyIntOfChars ['1','4'] = some 14 from by decide,
      show pyTruthy (some "09:00:00") = true from by decide,
      show pyTruthy (some "14:30:00") = true from by decide,
      hloc, hdur6, hdur3] <;>
    norm_num

/-- C1 witness: the theorem applied at concrete coordinates. -/
theorem claim_C1_min_duration_witness :
    check_rules_violation (some "09:00:00") (some "14:30:00")
        (some 40) (some 49) (some 40) (some 49)
        1 11 19 6 40.4093 49.8671 100 50
      = ("violation", ["Minimum iş müddəti pozulub (5.5 saat < 6 saat)"])
    ∧ check_rules_violation (some "09:00:00") (some "14:30:00")
        (some 40) (some 49) (some 40) (some 49)
        1 11 19 3 40.4093 49.8671 100 50
      = ("ok", []) :=
  claim_C1_min_duration 40 49

/-- C2: with `is_active = 0` the result is always status "inactive" with
exactly the single fixed violation text, for every combination of the
other inputs (the inactive branch returns before any other check). -/
theorem claim_C2_inactive_short_circuit (giris_time cixis_time : Option String)
    (giris_lat giris_lon cixis_lat cixis_lon : Option ℝ)
    (checkin_deadline checkout_deadline : Int) (min_work_hours : ℚ)
    (workplace_lat workplace_lon workplace_radius : ℝ) (location_tolerance : ℚ) :
    check_rules_violation giris_time cixis_time giris_lat giris_lon cixis_lat cixis_lon
        0 checkin_deadline checkout_deadline min_work_hours
        workplace_lat workplace_lon workplace_radius location_tolerance
      = ("inactive", ["Kursdan çıxarılıb"]) := rfl

/-- C2 witness: the theorem applied at one concrete input. -/
theorem claim_C2_inactive_short_circuit_witness :
    check_rules_violation (some "09:00:00") (some "14:30:00") none none none none
        0 11 19 6 40.4093 49.8671 100 50
      = ("inactive", ["Kursdan çıxarılıb"]) :=
  claim_C2_inactive_short_circuit (some "09:00:00") (some "14:30:00") none none none none
    11 19 6 40.4093 49.8671 100 50

/-- C10 counterexample: at `is_active = 0` the returned violation list is
non-empty and the check-in time is present, yet the status is "inactive",
not "violation" — so the claimed unrestricted equivalence between status
"violation" and (non-empty list or absent check-in) is false. -/
theorem claim_C10_counterexample :
    ¬ (((check_rules_violation (some "09:00:00") (some "14:30:00") none none none none
            0 11 19 6 40.4093 49.8671 100 50).1 = "violation")
        ↔ (((check_rules_violation (some "09:00:00") (some "14:30:00") none none none none
            0 11 19 6 40.4093 49.8671 100 50).2 ≠ [])
            ∨ pyTruthy (some "09:00:00") = false)) := by
  have e : check_rules_violation (some "09:00:00") (some "14:30:00") none none none none
      0 11 19 6 40.4093 49.8671 100 50 = ("inactive", ["Kursdan çıxarılıb"]) := rfl
  rw [e]
  decide

/-- C10 (amended): `check_rules_violation` always returns a status among
"ok", "violation" and "inactive"; the status is "inactive" exactly when
`is_active = 0`, and then the violation list is the single fixed text;
and whenever `is_active ≠ 0`, the status is "violation" exactly when the
returned violation list is non-empty or the check-in time is absent
(falsy). -/
theorem claim_C10_totality_status (gt ct : Option String) (glat glon clat clon : Option ℝ)
    (ia cd1 cd2 : Int) (mh : ℚ) (wla wlo wr : ℝ) (tol : ℚ) :
    ((check_rules_violation gt ct glat glon clat clon ia cd1 cd2 mh wla wlo wr tol).1 = "ok"
      ∨ (check_rules_violation gt ct glat glon clat clon ia cd1 cd2 mh wla wlo wr tol).1 = "violation"
      ∨ (check_rules_violation gt ct glat glon clat clon ia cd1 cd2 mh wla wlo wr tol).1 = "inactive")
    ∧ ((check_rules_violation gt ct glat glon clat clon ia cd1 cd2 mh wla wlo wr tol).1 = "inactive"
        ↔ ia = 0)
    ∧ (ia = 0 →
        (check_rules_violation gt ct glat glon clat clon ia cd1 cd2 mh wla wlo wr tol).2
          = ["Kursdan çıxarılıb"])
    ∧ (ia ≠ 0 →
        ((check_rules_violation gt ct glat glon clat clon ia cd1 cd2 mh wla wlo wr tol).1
            = "violation"
          ↔ ((check_rules_violation gt ct glat glon clat clon ia cd1 cd2 mh wla wlo wr tol).2 ≠ []
              ∨ pyTruthy gt = false))) := by
  by_cases h0 : ia = 0
  · subst h0
    have e : check_rules_violation gt ct glat glon clat clon 0 cd1 cd2 mh wla wlo wr tol
        = ("inactive", ["Kursdan çıxarılıb"]) := rfl
    rw [e]
    simp
  · by_cases h1 : pyTruthy gt = false
    · have e : check_rules_violation gt ct glat glon clat clon ia cd1 cd2 mh wla wlo wr tol
          = ("violation", [noCheckinMsg]) := by
        unfold check_rules_violation
        rw [if_neg h0, if_pos h1]
      rw [e]
      simp [h0, h1, noCheckinMsg]
    · have e : check_rules_violation gt ct glat glon clat clon ia cd1 cd2 mh wla wlo wr tol
          = if tryViolations (gt.getD "") ct cd1 cd2 mh glat glon clat clon tol = []
            then ("ok", []) else
              ("violation", tryViolations (gt.getD "") ct cd1 cd2 mh glat glon clat clon tol) := by
        unfold check_rules_violation
        rw [if_neg h0, if_neg h1]
      by_cases hvE : tryViolations (gt.getD "") ct cd1 cd2 mh glat glon clat clon tol = []
      · rw [hvE, if_pos rfl] at e
        rw [e]
        simp [h0, h1, hvE]
      · rw [if_neg hvE] at e
        rw [e]
        simp [h0, h1, hvE]

/-- C10 witness: the amended theorem applied at one concrete input. -/
theorem claim_C10_totality_status_witness :
    ((check_rules_violation (some "bad") none none none none none 1 11 19 6 0 0 100 50).1 = "ok"
      ∨ (check_rules_violation (some "bad") none none none none none 1 11 19 6 0 0 100 50).1 = "violation"
      ∨ (check_rules_violation (some "bad") none none none none none 1 11 19 6 0 0 100 50).1 = "inactive")
    ∧ ((check_rules_violation (some "bad") none none none none none 1 11 19 6 0 0 100 50).1 = "inactive"
        ↔ (1 : Int) = 0)
    ∧ ((1 : Int) = 0 →
        (check_rules_violation (some "bad") none none none none none 1 11 19 6 0 0 100 50).2
          = ["Kursdan çıxarılıb"])
    ∧ ((1 : Int) ≠ 0 →
        ((check_rules_violation (some "bad") none none none none none 1 11 19 6 0 0 100 50).1
            = "violation"
          ↔ ((check_rules_violation (some "bad") none none none none none 1 11 19 6 0 0 100 50).2 ≠ []
              ∨ pyTruthy (some "bad") = false))) :=
  claim_C10_totality_status (some "bad") none none none none none 1 11 19 6 0 0 100 50

/-- A non-empty prefix fixes the head of the list. -/
theorem prefixOf_head {c : Char} {p t : List Char} (h : (c :: p).isPrefixOf t = true) :
    ∃ r, t = c :: r := by
  cases t with
  | nil => simp [List.isPrefixOf] at h
  | cons a r =>
    simp [List.isPrefixOf] at h
    exact ⟨r, by rw [h.1]⟩

theorem prefix_plus_not_digits {t : List Char} (h : ['+','9','9','4'].isPrefixOf t = true) :
    ¬ (t.all Char.isDigit = true) := by
  obtain ⟨r, rfl⟩ := prefixOf_head h
  simp [List.all_cons, show Char.isDigit '+' = false from by decide]

theorem prefix_head_clash {c d : Char} {p q : List Char} {t : List Char} (hne : d ≠ c)
    (h : (c :: p).isPrefixOf t = true) : ¬ ((d :: q).isPrefixOf t = true) := by
  obtain ⟨r, rfl⟩ := prefixOf_head h
  simp [List.isPrefixOf]
  intro h1
  exact absurd h1 hne

theorem drop1_two (t : List Char) (h : (t.drop 1).length = 9) :
    ∃ a b r, t.drop 1 = a :: b :: r := by
  rcases u : t.drop 1 with _ | ⟨a, v⟩
  · rw [u] at h; simp at h
  · rcases v with _ | ⟨b, r⟩
    · rw [u] at h; simp at h
    · exact ⟨a, b, r, rfl⟩

theorem take2_mem (a b : Char) (r : List Char) :
    startsWithAny (a :: b :: r) opPrefixes8 = true ↔ (a :: b :: r).take 2 ∈ opPrefixes8 := by
  simp [startsWithAny, opPrefixes8, List.isPrefixOf]
  constructor
  · rintro (⟨h1, h2⟩ | ⟨h1, h2⟩ | ⟨h1, h2⟩ | ⟨h1, h2⟩ | ⟨h1, h2⟩ | ⟨h1, h2⟩ | ⟨h1, h2⟩ | ⟨h1, h2⟩) <;>
      subst h1 <;> subst h2 <;> simp
  · rintro (⟨h1, h2⟩ | ⟨h1, h2⟩ | ⟨h1, h2⟩ | ⟨h1, h2⟩ | ⟨h1, h2⟩ | ⟨h1, h2⟩ | ⟨h1, h2⟩ | ⟨h1, h2⟩) <;>
      subst h1 <;> subst h2 <;> simp

/-- C3 counterexample: "0901234567" is a 0-prefixed 10-digit number whose
remaining 9 digits start with "90", one of the claimed ten operator
prefixes, yet the code rejects it (the `0` branch checks only eight
prefixes, without 90 and 99). -/
theorem claim_C3_counterexample :
    startsWithAny ("0901234567".toList.drop 1) opPrefixes10 = true
    ∧ (validate_and_normalize_phone "0901234567").1 = false := by decide

/-- C3 (amended): after stripping spaces/dashes/parentheses the code
accepts exactly the four shapes — bare 9-digit, "+994"-prefixed,
bare "994"-prefixed (each against the ten operator prefixes), and
0-prefixed 10-digit against only the eight prefixes 50, 51, 55, 60, 70,
77, 10, 12 — always normalizing to "+994" followed by the nine
subscriber digits, and rejects every other input: the source function
agrees with `phoneSpec`, the spec-worded rule carrying that one
amendment. -/
theorem claim_C3_amended (s : String) :
    ((validate_and_normalize_phone s).1 = true ↔ (phoneSpec s).isSome = true)
    ∧ (∀ p, phoneSpec s = some p → validate_and_normalize_phone s = (true, p)) := by
  unfold validate_and_normalize_phone phoneSpec
  by_cases hp : pyStrip s.toList = []
  · rw [if_pos hp, hp]
    simp [cleanPhone, startsWithAny, List.isPrefixOf, opPrefixes10, opPrefixes8]
  · rw [if_neg hp]
    set t := cleanPhone (pyStrip s.toList) with ht
    by_cases hA : t.length = 9 ∧ t.all Char.isDigit = true
    · by_cases hW : startsWithAny t opPrefixes10 = true
      · simp [-List.all_eq_true, hA.1, hA.2, hW]
      · have hno2 : ¬ (['+','9','9','4'].isPrefixOf t = true) :=
          fun h => prefix_plus_not_digits h hA.2
        have hno3 : ¬ ((t.drop 3).length = 9) := by
          simp [List.length_drop, hA.1]
        have hno4 : ¬ (t.length = 10) := by simp [-List.all_eq_true, hA.1]
        simp [-List.all_eq_true, hA.1, hA.2, hW, hno2, hno3, hno4]
    · have hno1 : ¬ (t.length = 9 ∧ t.all Char.isDigit = true
          ∧ startsWithAny t opPrefixes10 = true) :=
        fun hc => hA ⟨hc.1, hc.2.1⟩
      by_cases hB : ['+','9','9','4'].isPrefixOf t = true
      · by_cases hC : t.length - 4 = 9 ∧ (t.drop 4).all Char.isDigit = true
            ∧ startsWithAny (t.drop 4) opPrefixes10 = true
        · simp [-List.all_eq_true, hA, hno1, hB, hC, hC.1, hC.2.1, hC.2.2]
        · have hno3 : ¬ (['9','9','4'].isPrefixOf t = true) :=
            prefix_head_clash (by decide) hB
          have hno4 : ¬ (['0'].isPrefixOf t = true) :=
            prefix_head_clash (by decide) hB
          simp [-List.all_eq_true, hA, hno1, hB, hC, hno3, hno4]
      · have hno2 : ¬ (['+','9','9','4'].isPrefixOf t = true
            ∧ t.length - 4 = 9 ∧ (t.drop 4).all Char.isDigit = true
            ∧ startsWithAny (t.drop 4) opPrefixes10 = true) :=
          fun hc => hB hc.1
        by_cases hD : ['9','9','4'].isPrefixOf t = true
        · by_cases hE : t.length - 3 = 9 ∧ (t.drop 3).all Char.isDigit = true
              ∧ startsWithAny (t.drop 3) opPrefixes10 = true
          · simp [-List.all_eq_true, hA, hno1, hno2, hB, hD, hE, hE.1, hE.2.1, hE.2.2]
          · have hno4 : ¬ (['0'].isPrefixOf t = true) :=
              prefix_head_clash (by decide) hD
            simp [-List.all_eq_true, hA, hno1, hno2, hB, hD, hE, hno4]
        · have hno3 : ¬ (['9','9','4'].isPrefixOf t = true
              ∧ t.length - 3 = 9 ∧ (t.drop 3).all Char.isDigit = true
              ∧ startsWithAny (t.drop 3) opPrefixes10 = true) :=
            fun hc => hD hc.1
          by_cases hF : ['0'].isPrefixOf t = true
          · by_cases hG : t.length = 10 ∧ t.all Char.isDigit = true
                ∧ (t.drop 1).take 2 ∈ opPrefixes8
            · have hlen : (t.drop 1).length = 9 := by rw [List.length_drop, hG.1]
              have hCfix : (t.drop 4).length = t.length - 4 := List.length_drop 4 t
              obtain ⟨a, b, r, hab⟩ := drop1_two t hlen
              have hsw : startsWithAny (t.drop 1) opPrefixes8 = true := by
                rw [hab, take2_mem, ← hab]
                exact hG.2.2
              simp [-List.all_eq_true, -List.drop_one, hA, hno1, hno2, hno3, hB, hD, hF, hG.1, hG.2.1, hG.2.2, hsw]
            · have hnosw : ¬ (['0'].isPrefixOf t = true ∧ t.length = 10
                  ∧ t.all Char.isDigit = true
                  ∧ startsWithAny (t.drop 1) opPrefixes8 = true) := by
                intro hc
                have hlen : (t.drop 1).length = 9 := by rw [List.length_drop, hc.2.1]
                obtain ⟨a, b, r, hab⟩ := drop1_two t hlen
                rw [hab, take2_mem, ← hab] at hc
                exact hG ⟨hc.2.1, hc.2.2.1, hc.2.2.2⟩
              simp [-List.all_eq_true, -List.drop_one, hA, hno1, hno2, hno3, hB, hD, hF, hG, hnosw]
              refine ⟨fun h1 h2 => ?_, fun p h1 h2 hs _ => (hnosw ⟨hF, h1, h2, hs⟩).elim⟩
              have hx : ¬ startsWithAny (List.drop 1 t) opPrefixes8 = true :=
                fun hs => hnosw ⟨hF, h1, h2, hs⟩
              simpa using hx
          · have hno4 : ¬ (['0'].isPrefixOf t = true ∧ t.length = 10
                ∧ t.all Char.isDigit = true
                ∧ startsWithAny (t.drop 1) opPrefixes8 = true) :=
              fun hc => hF hc.1
            simp [-List.all_eq_true, hA, hno1, hno2, hno3, hB, hD, hF, hno4]

/-- C8: the CSV generator always writes with a byte-order mark and emits
a header row even for an empty dataset — but the empty-dataset branch
writes only fourteen header literals, omitting "Xəritə Linki", while the
non-empty branch writes exactly the fifteen claimed literals. This
evaluates the code at the failing input (the empty dataset). -/
theorem claim_C8_empty_header_missing_column :
    (generate_csv_report []).bom = true
    ∧ (generate_csv_report []).rows = [csvHeadersEmptyCase]
    ∧ csvHeadersEmptyCase.length = 14
    ∧ "Xəritə Linki" ∉ csvHeadersEmptyCase
    ∧ (∀ r : CsvRow, (generate_csv_report [r]).bom = true
        ∧ (generate_csv_report [r]).rows.head? = some csvHeadersMainCase)
    ∧ csvHeadersMainCase
        = ["Tarix", "FIN Kodu", "Ad", "Soyad", "Vəsiqə Seriya", "Telefon",
           "Qrup Kodu", "Peşə", "Giriş Saatı", "Çıxış Saatı",
           "GPS Koordinatları", "Lokasiya", "Xəritə Linki", "Status", "Qayda Pozuntuları"] :=
  ⟨rfl, rfl, by decide, by decide, fun r => ⟨rfl, rfl⟩, rfl⟩

/-- C8 witness: the theorem instantiated, its universally quantified part
applied at a concrete row. -/
theorem claim_C8_empty_header_missing_column_witness :
    (generate_csv_report []).rows = [csvHeadersEmptyCase]
    ∧ ((generate_csv_report
          [⟨none, none, none, none, none, none, none, none, none, none,
            none, none, none, none, none, none, none, none, none, none⟩]).bom = true
        ∧ (generate_csv_report
          [⟨none, none, none, none, none, none, none, none, none, none,
            none, none, none, none, none, none, none, none, none, none⟩]).rows.head?
          = some csvHeadersMainCase) :=
  ⟨claim_C8_empty_header_missing_column.2.1,
   claim_C8_empty_header_missing_column.2.2.2.2.1
     ⟨none, none, none, none, none, none, none, none, none, none,
      none, none, none, none, none, none, none, none, none, none⟩⟩

/-- C3 witness: the amended theorem applied at "0501234567", together
with the concrete normalizations the spec lists. -/
theorem claim_C3_amended_witness :
    phoneSpec "0501234567" = some "+994501234567"
    ∧ validate_and_normalize_phone "501234567" = (true, "+994501234567")
    ∧ validate_and_normalize_phone "+994501234567" = (true, "+994501234567")
    ∧ (validate_and_normalize_phone "311234567").1 = false
    ∧ (((validate_and_normalize_phone "0501234567").1 = true
          ↔ (phoneSpec "0501234567").isSome = true)
        ∧ (∀ p, phoneSpec "0501234567" = some p
            → validate_and_normalize_phone "0501234567" = (true, p))) :=
  ⟨by decide, by decide, by decide, by decide, claim_C3_amended "0501234567"⟩


theorem upsert_registrations (db : DB) (tgid : Int) (n f c s p : String) :
    (upsert_user_profile db tgid n f c s p).registrations = db.registrations := by
  unfold upsert_user_profile
  split <;> rfl

theorem get_user_upsert (db : DB) (tgid : Int) (n f c s p : String) :
    ∃ u, get_user_by_telegram_id (upsert_user_profile db tgid n f c s p) tgid = some u
      ∧ u.telegram_id = tgid ∧ u.name = n ∧ u.fin = f ∧ u.seriya = s ∧ u.code = c
      ∧ u.phone_number = some p := by
  unfold get_user_by_telegram_id upsert_user_profile
  by_cases hany : db.users.any (fun u => u.telegram_id == tgid) = true
  · rw [if_pos hany]
    dsimp only
    rw [List.find?_map]
    have hcomp : ((fun u : UserRow => u.telegram_id == tgid) ∘ (fun u : UserRow =>
        if u.telegram_id == tgid then
          { u with name := n, fin := f, seriya := s, code := c, phone_number := some p }
        else u)) = fun u : UserRow => u.telegram_id == tgid := by
      funext u
      by_cases h : (u.telegram_id == tgid) = true <;> simp [Function.comp, h]
    rw [hcomp]
    obtain ⟨u0, hmem, hp⟩ := List.any_eq_true.mp hany
    cases hfind : db.users.find? (fun u => u.telegram_id == tgid) with
    | none => exact absurd hp ((List.find?_eq_none.mp hfind) u0 hmem)
    | some u1 =>
      have hp1 := List.find?_some hfind
      simp only at hp1
      refine ⟨_, rfl, ?_⟩
      simp [hp1]
      exact beq_iff_eq.mp hp1
  · rw [if_neg hany]
    dsimp only
    rw [List.find?_append]
    have h1 : db.users.find? (fun u => u.telegram_id == tgid) = none :=
      List.find?_eq_none.mpr (fun x hx hpx => hany (List.any_eq_true.mpr ⟨x, hx, hpx⟩))
    rw [h1]
    simp [List.find?_cons]

theorem upsert_all_matching (db : DB) (tgid : Int) (n f c s p : String) :
    ∀ u ∈ (upsert_user_profile db tgid n f c s p).users, u.telegram_id = tgid →
      u.name = n ∧ u.fin = f ∧ u.seriya = s ∧ u.code = c ∧ u.phone_number = some p := by
  unfold upsert_user_profile
  intro u hmem htg
  by_cases hany : db.users.any (fun x => x.telegram_id == tgid) = true
  · rw [if_pos hany] at hmem
    simp only [List.mem_map] at hmem
    obtain ⟨v, hv, hvu⟩ := hmem
    by_cases h : (v.telegram_id == tgid) = true
    · rw [if_pos h] at hvu
      rw [← hvu]
      exact ⟨rfl, rfl, rfl, rfl, rfl⟩
    · rw [if_neg h] at hvu
      rw [← hvu] at htg
      exact absurd (beq_iff_eq.mpr htg) h
  · rw [if_neg hany] at hmem
    simp only [List.mem_append, List.mem_singleton] at hmem
    rcases hmem with hv | hnew
    · have hx : db.users.any (fun x => x.telegram_id == tgid) = true :=
        List.any_eq_true.mpr ⟨u, hv, by simp [htg]⟩
      exact absurd hx hany
    · rw [hnew]
      exact ⟨rfl, rfl, rfl, rfl, rfl⟩

theorem upsert_idem (db : DB) (tgid : Int) (n f c s p : String)
    (hany : db.users.any (fun u => u.telegram_id == tgid) = true)
    (hall : ∀ u ∈ db.users, u.telegram_id = tgid →
      u.name = n ∧ u.fin = f ∧ u.seriya = s ∧ u.code = c ∧ u.phone_number = some p) :
    upsert_user_profile db tgid n f c s p = db := by
  unfold upsert_user_profile
  rw [if_pos hany]
  have hmap : db.users.map (fun u : UserRow =>
      if u.telegram_id == tgid then
        { u with name := n, fin := f, seriya := s, code := c, phone_number := some p }
      else u) = db.users.map id := by
    apply List.map_congr_left
    intro u hmem
    by_cases h : (u.telegram_id == tgid) = true
    · obtain ⟨h1, h2, h3, h4, h5⟩ := hall u hmem (beq_iff_eq.mp h)
      rw [if_pos h]
      cases u
      simp_all
    · rw [if_neg h]
      rfl
  rw [hmap, List.map_id]

theorem upsert_touches_only_users (db : DB) (tgid : Int) (n f c s p : String) :
    (upsert_user_profile db tgid n f c s p).attendance = db.attendance
    ∧ (upsert_user_profile db tgid n f c s p).users2 = db.users2
    ∧ (upsert_user_profile db tgid n f c s p).sessions = db.sessions := by
  unfold upsert_user_profile
  split <;> exact ⟨rfl, rfl, rfl⟩

theorem add_registration_tables (db : DB) (uid : Int) (date profession code : String) :
    (add_registration db uid date profession code).1.users = db.users
    ∧ (add_registration db uid date profession code).1.attendance = db.attendance
    ∧ (add_registration db uid date profession code).1.users2 = db.users2
    ∧ (add_registration db uid date profession code).1.sessions = db.sessions := by
  unfold add_registration
  split <;> exact ⟨rfl, rfl, rfl, rfl⟩

/-- C7: a profile upsert on an existing row leaves every row's active
flag (and identity) unchanged, while updating the matched row's mutable
fields (name, fin, seriya, code, phone). -/
theorem claim_C7_upsert_keeps_is_active (db : DB) (tgid : Int) (n f c s p : String)
    (hexists : db.users.any (fun u => u.telegram_id == tgid) = true) :
    ((upsert_user_profile db tgid n f c s p).users.map (fun u => u.is_active)
      = db.users.map (fun u => u.is_active))
    ∧ ((upsert_user_profile db tgid n f c s p).users.map (fun u => (u.id, u.telegram_id))
      = db.users.map (fun u => (u.id, u.telegram_id)))
    ∧ (∀ u ∈ (upsert_user_profile db tgid n f c s p).users, u.telegram_id = tgid →
        u.name = n ∧ u.fin = f ∧ u.seriya = s ∧ u.code = c ∧ u.phone_number = some p) := by
  refine ⟨?_, ?_, upsert_all_matching db tgid n f c s p⟩ <;>
  · unfold upsert_user_profile
    rw [if_pos hexists]
    dsimp only
    rw [List.map_map]
    apply List.map_congr_left
    intro u hmem
    by_cases h : (u.telegram_id == tgid) = true <;> simp [Function.comp, h]

/-- C7 witness: the theorem applied at the one-row database. -/
theorem claim_C7_upsert_keeps_is_active_witness :
    ((upsert_user_profile sampleDB 7 "n" "f" "c" "s" "p").users.map (fun u => u.is_active)
      = sampleDB.users.map (fun u => u.is_active))
    ∧ ((upsert_user_profile sampleDB 7 "n" "f" "c" "s" "p").users.map
          (fun u => (u.id, u.telegram_id))
      = sampleDB.users.map (fun u => (u.id, u.telegram_id)))
    ∧ (∀ u ∈ (upsert_user_profile sampleDB 7 "n" "f" "c" "s" "p").users, u.telegram_id = 7 →
        u.name = "n" ∧ u.fin = "f" ∧ u.seriya = "s" ∧ u.code = "c"
        ∧ u.phone_number = some "p") :=
  claim_C7_upsert_keeps_is_active sampleDB 7 "n" "f" "c" "s" "p" (by decide)



/-- C4: with no same-day registration row for this profession and code
present, completing the registration step creates exactly one
registration-log row; running the identical completion again reports
already-registered and leaves the database unchanged (no second row). -/
theorem claim_C4_same_day_duplicate (db : DB) (tgid : Int)
    (name fin seriya phone code profession today : String)
    (hfresh : ∀ r ∈ db.registrations,
      ¬(r.date = today ∧ r.profession = profession ∧ r.code = code)) :
    (reg_finalize db tgid name fin seriya phone code profession today).2
      = RegOutcome.completed
    ∧ (∃ uid, (reg_finalize db tgid name fin seriya phone code profession today).1.registrations
        = db.registrations
          ++ [{ user_id := uid, date := today, profession := profession, code := code }])
    ∧ (reg_finalize (reg_finalize db tgid name fin seriya phone code profession today).1
        tgid name fin seriya phone code profession today).2 = RegOutcome.alreadyRegistered
    ∧ (reg_finalize (reg_finalize db tgid name fin seriya phone code profession today).1
        tgid name fin seriya phone code profession today).1
      = (reg_finalize db tgid name fin seriya phone code profession today).1 := by
  obtain ⟨u, hget, htg, hn, hf, hs, hc, hp⟩ := get_user_upsert db tgid name fin code seriya phone
  have hreg1 : (upsert_user_profile db tgid name fin code seriya phone).registrations
      = db.registrations := upsert_registrations db tgid name fin code seriya phone
  have hhas1 : has_registration (upsert_user_profile db tgid name fin code seriya phone)
      u.id today profession code = false := by
    unfold has_registration
    rw [hreg1]
    apply List.any_eq_false.mpr
    intro r hr hb
    simp only [Bool.and_eq_true, beq_iff_eq] at hb
    exact hfresh r hr ⟨hb.1.1.2, hb.1.2, hb.2⟩
  have haddno : ((upsert_user_profile db tgid name fin code seriya phone).registrations.any
      (fun r => r.user_id == u.id && r.date == today && r.code == code
        && r.profession == profession)) = false := by
    rw [hreg1]
    apply List.any_eq_false.mpr
    intro r hr hb
    simp only [Bool.and_eq_true, beq_iff_eq] at hb
    exact hfresh r hr ⟨hb.1.1.2, hb.2, hb.1.2⟩
  have hrun1 : reg_finalize db tgid name fin seriya phone code profession today
      = ((add_registration (upsert_user_profile db tgid name fin code seriya phone)
            u.id today profession code).1, RegOutcome.completed) := by
    simp only [reg_finalize]
    rw [hget]
    simp [hhas1]
  have haddeq : (add_registration (upsert_user_profile db tgid name fin code seriya phone)
      u.id today profession code).1
      = { upsert_user_profile db tgid name fin code seriya phone with
          registrations := (upsert_user_profile db tgid name fin code seriya phone).registrations
            ++ [{ user_id := u.id, date := today, profession := profession, code := code }] } := by
    unfold add_registration
    rw [haddno]
    simp
  have hregs2 : (add_registration (upsert_user_profile db tgid name fin code seriya phone)
      u.id today profession code).1.registrations
      = db.registrations
        ++ [{ user_id := u.id, date := today, profession := profession, code := code }] := by
    rw [haddeq]
    rw [← hreg1]
  have husers2 : (add_registration (upsert_user_profile db tgid name fin code seriya phone)
      u.id today profession code).1.users
      = (upsert_user_profile db tgid name fin code seriya phone).users :=
    (add_registration_tables _ u.id today profession code).1
  have hfindu : (upsert_user_profile db tgid name fin code seriya phone).users.find?
      (fun v => v.telegram_id == tgid) = some u := hget
  have hany2 : ((add_registration (upsert_user_profile db tgid name fin code seriya phone)
      u.id today profession code).1.users.any (fun v => v.telegram_id == tgid)) = true := by
    rw [husers2]
    exact List.any_eq_true.mpr
      ⟨u, List.mem_of_find?_eq_some hfindu,
        @List.find?_some UserRow (fun v => v.telegram_id == tgid) u _ hfindu⟩
  have hall2 : ∀ v ∈ (add_registration (upsert_user_profile db tgid name fin code seriya phone)
      u.id today profession code).1.users, v.telegram_id = tgid →
      v.name = name ∧ v.fin = fin ∧ v.seriya = seriya ∧ v.code = code
      ∧ v.phone_number = some phone := by
    rw [husers2]
    exact upsert_all_matching db tgid name fin code seriya phone
  have hidem : upsert_user_profile
      ((add_registration (upsert_user_profile db tgid name fin code seriya phone)
        u.id today profession code).1) tgid name fin code seriya phone
      = (add_registration (upsert_user_profile db tgid name fin code seriya phone)
        u.id today profession code).1 :=
    upsert_idem _ tgid name fin code seriya phone hany2 hall2
  have hget2 : get_user_by_telegram_id
      ((add_registration (upsert_user_profile db tgid name fin code seriya phone)
        u.id today profession code).1) tgid = some u := by
    unfold get_user_by_telegram_id
    rw [husers2]
    exact hget
  have hhas2 : has_registration
      ((add_registration (upsert_user_profile db tgid name fin code seriya phone)
        u.id today profession code).1) u.id today profession code = true := by
    unfold has_registration
    rw [hregs2]
    refine List.any_eq_true.mpr ⟨_, List.mem_append_right _ (List.mem_singleton_self _), ?_⟩
    simp
  have hrun2 : reg_finalize
      ((add_registration (upsert_user_profile db tgid name fin code seriya phone)
        u.id today profession code).1) tgid name fin seriya phone code profession today
      = ((add_registration (upsert_user_profile db tgid name fin code seriya phone)
          u.id today profession code).1, RegOutcome.alreadyRegistered) := by
    simp only [reg_finalize]
    rw [hidem, hget2]
    simp [hhas2]
  rw [hrun1]
  refine ⟨rfl, ⟨u.id, hregs2⟩, ?_, ?_⟩
  · rw [hrun2]
  · rw [hrun2]

/-- C4 witness: the theorem applied at the one-row sample database. -/
theorem claim_C4_same_day_duplicate_witness :
    (reg_finalize sampleDB 7 "N" "F" "S" "+994501234567" "K1" "P1" "2024-01-02").2
      = RegOutcome.completed
    ∧ (∃ uid, (reg_finalize sampleDB 7 "N" "F" "S" "+994501234567" "K1" "P1"
          "2024-01-02").1.registrations
        = sampleDB.registrations
          ++ [{ user_id := uid, date := "2024-01-02", profession := "P1", code := "K1" }])
    ∧ (reg_finalize (reg_finalize sampleDB 7 "N" "F" "S" "+994501234567" "K1" "P1"
          "2024-01-02").1 7 "N" "F" "S" "+994501234567" "K1" "P1" "2024-01-02").2
        = RegOutcome.alreadyRegistered
    ∧ (reg_finalize (reg_finalize sampleDB 7 "N" "F" "S" "+994501234567" "K1" "P1"
          "2024-01-02").1 7 "N" "F" "S" "+994501234567" "K1" "P1" "2024-01-02").1
      = (reg_finalize sampleDB 7 "N" "F" "S" "+994501234567" "K1" "P1" "2024-01-02").1 :=
  claim_C4_same_day_duplicate sampleDB 7 "N" "F" "S" "+994501234567" "K1" "P1" "2024-01-02"
    (by intro r hr; simp [sampleDB] at hr)




theorem legacy_phase_none (db : DB) (tgid : Int)
    (h : db.users.find? (fun u => u.telegram_id == tgid) = none) :
    delete_legacy_phase db tgid = (db, 0) := by
  unfold delete_legacy_phase
  rw [h]

theorem gps_phase_none (db : DB) (tgid : Int)
    (h : db.users2.find? (fun u => u.telegram_id == tgid) = none) :
    delete_gps_phase db tgid = (db, 0) := by
  unfold delete_gps_phase
  rw [h]

theorem legacy_phase_users2 (db : DB) (tgid : Int) :
    (delete_legacy_phase db tgid).1.users2 = db.users2
    ∧ (delete_legacy_phase db tgid).1.sessions = db.sessions := by
  unfold delete_legacy_phase
  cases db.users.find? (fun u => u.telegram_id == tgid) <;> exact ⟨rfl, rfl⟩

/-- C6: under the schema's uniqueness of telegram_id and of the primary
keys, delete_user_all removes exactly the rows of the given chat
identity: the legacy profile row and, when it existed, all of its
attendance and registration rows; independently the GPS profile row and,
when it existed, all of its sessions; unrelated rows stay; and for an
identity with no legacy and no GPS row it is a no-op returning false. -/
theorem claim_C6_cascading_delete (db : DB) (tgid : Int)
    (hTg : (db.users.map (fun u => u.telegram_id)).Nodup)
    (hId : (db.users.map (fun u => u.id)).Nodup)
    (hTg2 : (db.users2.map (fun u => u.telegram_id)).Nodup)
    (hId2 : (db.users2.map (fun u => u.id)).Nodup) :
    ((delete_user_all db tgid).1.users
      = db.users.filter (fun u => !(u.telegram_id == tgid)))
    ∧ ((delete_user_all db tgid).1.users2
      = db.users2.filter (fun u => !(u.telegram_id == tgid)))
    ∧ (∀ u, get_user_by_telegram_id db tgid = some u →
        (delete_user_all db tgid).1.attendance
          = db.attendance.filter (fun a => !(a.user_id == u.id))
        ∧ (delete_user_all db tgid).1.registrations
          = db.registrations.filter (fun r => !(r.user_id == u.id)))
    ∧ (get_user_by_telegram_id db tgid = none →
        (delete_user_all db tgid).1.attendance = db.attendance
        ∧ (delete_user_all db tgid).1.registrations = db.registrations)
    ∧ (∀ u2, db.users2.find? (fun x => x.telegram_id == tgid) = some u2 →
        (delete_user_all db tgid).1.sessions
          = db.sessions.filter (fun s => !(s.user_id == u2.id)))
    ∧ (db.users2.find? (fun x => x.telegram_id == tgid) = none →
        (delete_user_all db tgid).1.sessions = db.sessions)
    ∧ ((get_user_by_telegram_id db tgid = none
        ∧ db.users2.find? (fun x => x.telegram_id == tgid) = none) →
        (delete_user_all db tgid).1 = db ∧ (delete_user_all db tgid).2 = false) := by
  have hgu : get_user_by_telegram_id db tgid = db.users.find? (fun u => u.telegram_id == tgid) :=
    rfl
  cases hf1 : db.users.find? (fun u => u.telegram_id == tgid) with
  | none =>
    have hall1 : ∀ x ∈ db.users, (x.telegram_id == tgid) = false := by
      intro x hx
      have := List.find?_eq_none.mp hf1 x hx
      simpa using this
    cases hf2 : db.users2.find? (fun x => x.telegram_id == tgid) with
    | none =>
      have hall2 : ∀ x ∈ db.users2, (x.telegram_id == tgid) = false := by
        intro x hx
        have := List.find?_eq_none.mp hf2 x hx
        simpa using this
      have ed : delete_user_all db tgid = (db, false) := by
        unfold delete_user_all
        rw [legacy_phase_none db tgid hf1]
        dsimp only
        rw [gps_phase_none db tgid hf2]
        rfl
      rw [ed]
      refine ⟨?_, ?_, ?_, fun _ => ⟨rfl, rfl⟩, ?_, fun _ => rfl, fun _ => ⟨rfl, rfl⟩⟩
      · exact (List.filter_eq_self.mpr (fun x hx => by rw [hall1 x hx]; rfl)).symm
      · exact (List.filter_eq_self.mpr (fun x hx => by rw [hall2 x hx]; rfl)).symm
      · intro v hv
        rw [hgu, hf1] at hv
        exact absurd hv (by simp)
      · intro u2 hu2
        exact absurd hu2 (by simp)
    | some u2 =>
      have hmem2 : u2 ∈ db.users2 := List.mem_of_find?_eq_some hf2
      have hptg2 : u2.telegram_id = tgid := by
        have := @List.find?_some User2Row (fun x => x.telegram_id == tgid) u2 _ hf2
        simpa using this
      have hpt2 : ∀ x ∈ db.users2, (!(x.id == u2.id)) = (!(x.telegram_id == tgid)) := by
        intro x hx
        have hiff : (x.id == u2.id) = (x.telegram_id == tgid) := by
          apply Bool.eq_iff_iff.mpr
          simp only [beq_iff_eq]
          constructor
          · intro h
            have hx2 : x = u2 := List.inj_on_of_nodup_map hId2 hx hmem2 h
            rw [hx2, hptg2]
          · intro h
            have hx2 : x = u2 :=
              List.inj_on_of_nodup_map hTg2 hx hmem2 (h.trans hptg2.symm)
            rw [hx2]
        rw [hiff]
      have ed : delete_user_all db tgid =
          ({ db with
              sessions := db.sessions.filter (fun s => !(s.user_id == u2.id)),
              users2 := db.users2.filter (fun x => !(x.id == u2.id)) },
            decide (0 < 0 + ((db.sessions.filter (fun s => s.user_id == u2.id)).length
              + (db.users2.filter (fun x => x.id == u2.id)).length))) := by
        unfold delete_user_all
        rw [legacy_phase_none db tgid hf1]
        dsimp only
        unfold delete_gps_phase
        rw [hf2]
      rw [ed]
      refine ⟨?_, ?_, ?_, fun _ => ⟨rfl, rfl⟩, ?_, ?_, ?_⟩
      · exact (List.filter_eq_self.mpr (fun x hx => by rw [hall1 x hx]; rfl)).symm
      · exact List.filter_congr hpt2
      · intro v hv
        rw [hgu, hf1] at hv
        exact absurd hv (by simp)
      · intro v2 hv2
        have : u2 = v2 := by injection hv2
        rw [← this]
      · intro hnone
        exact absurd hnone (by simp)
      · intro hcon
        exact absurd hcon.2 (by simp)
  | some u =>
    have hmem : u ∈ db.users := List.mem_of_find?_eq_some hf1
    have hptg : u.telegram_id = tgid := by
      have := @List.find?_some UserRow (fun x => x.telegram_id == tgid) u _ hf1
      simpa using this
    have hpt : ∀ x ∈ db.users, (!(x.id == u.id)) = (!(x.telegram_id == tgid)) := by
      intro x hx
      have hiff : (x.id == u.id) = (x.telegram_id == tgid) := by
        apply Bool.eq_iff_iff.mpr
        simp only [beq_iff_eq]
        constructor
        · intro h
          have hx2 : x = u := List.inj_on_of_nodup_map hId hx hmem h
          rw [hx2, hptg]
        · intro h
          have hx2 : x = u := List.inj_on_of_nodup_map hTg hx hmem (h.trans hptg.symm)
          rw [hx2]
      rw [hiff]
    cases hf2 : db.users2.find? (fun x => x.telegram_id == tgid) with
    | none =>
      have hall2 : ∀ x ∈ db.users2, (x.telegram_id == tgid) = false := by
        intro x hx
        have := List.find?_eq_none.mp hf2 x hx
        simpa using this
      have e1 : delete_legacy_phase db tgid
          = ({ db with
              attendance := db.attendance.filter (fun a => !(a.user_id == u.id)),
              registrations := db.registrations.filter (fun r => !(r.user_id == u.id)),
              users := db.users.filter (fun x => !(x.id == u.id)) },
            (db.attendance.filter (fun a => a.user_id == u.id)).length
              + (db.registrations.filter (fun r => r.user_id == u.id)).length
              + (db.users.filter (fun x => x.id == u.id)).length) := by
        unfold delete_legacy_phase
        rw [hf1]
      have h2x : (delete_legacy_phase db tgid).1.users2.find?
          (fun x => x.telegram_id == tgid) = none := by
        rw [(legacy_phase_users2 db tgid).1]
        exact hf2
      have ed : delete_user_all db tgid
          = ((delete_gps_phase (delete_legacy_phase db tgid).1 tgid).1,
             decide (0 < (delete_legacy_phase db tgid).2
               + (delete_gps_phase (delete_legacy_phase db tgid).1 tgid).2)) := rfl
      rw [gps_phase_none _ tgid h2x] at ed
      dsimp only at ed
      rw [e1] at ed
      dsimp only at ed
      rw [ed]
      refine ⟨List.filter_congr hpt, ?_, ?_, ?_, ?_, fun _ => rfl, ?_⟩
      · exact (List.filter_eq_self.mpr (fun x hx => by rw [hall2 x hx]; rfl)).symm
      · intro v hv
        rw [hgu, hf1] at hv
        have : u = v := by injection hv
        rw [← this]
        exact ⟨rfl, rfl⟩
      · intro hnone
        rw [hgu, hf1] at hnone
        exact absurd hnone (by simp)
      · intro v2 hv2
        exact absurd hv2 (by simp)
      · intro hcon
        rw [hgu, hf1] at hcon
        exact absurd hcon.1 (by simp)
    | some u2 =>
      have hmem2 : u2 ∈ db.users2 := List.mem_of_find?_eq_some hf2
      have hptg2 : u2.telegram_id = tgid := by
        have := @List.find?_some User2Row (fun x => x.telegram_id == tgid) u2 _ hf2
        simpa using this
      have hpt2 : ∀ x ∈ db.users2, (!(x.id == u2.id)) = (!(x.telegram_id == tgid)) := by
        intro x hx
        have hiff : (x.id == u2.id) = (x.telegram_id == tgid) := by
          apply Bool.eq_iff_iff.mpr
          simp only [beq_iff_eq]
          constructor
          · intro h
            have hx2 : x = u2 := List.inj_on_of_nodup_map hId2 hx hmem2 h
            rw [hx2, hptg2]
          · intro h
            have hx2 : x = u2 :=
              List.inj_on_of_nodup_map hTg2 hx hmem2 (h.trans hptg2.symm)
            rw [hx2]
        rw [hiff]
      have e1 : delete_legacy_phase db tgid
          = ({ db with
              attendance := db.attendance.filter (fun a => !(a.user_id == u.id)),
              registrations := db.registrations.filter (fun r => !(r.user_id == u.id)),
              users := db.users.filter (fun x => !(x.id == u.id)) },
            (db.attendance.filter (fun a => a.user_id == u.id)).length
              + (db.registrations.filter (fun r => r.user_id == u.id)).length
              + (db.users.filter (fun x => x.id == u.id)).length) := by
        unfold delete_legacy_phase
        rw [hf1]
      have ed : delete_user_all db tgid
          = ((delete_gps_phase (delete_legacy_phase db tgid).1 tgid).1,
             decide (0 < (delete_legacy_phase db tgid).2
               + (delete_gps_phase (delete_legacy_phase db tgid).1 tgid).2)) := rfl
      rw [e1] at ed
      dsimp only at ed
      unfold delete_gps_phase at ed
      dsimp only at ed
      rw [hf2] at ed
      dsimp only at ed
      rw [ed]
      refine ⟨List.filter_congr hpt, List.filter_congr hpt2, ?_, ?_, ?_, ?_, ?_⟩
      · intro v hv
        rw [hgu, hf1] at hv
        have : u = v := by injection hv
        rw [← this]
        exact ⟨rfl, rfl⟩
      · intro hnone
        rw [hgu, hf1] at hnone
        exact absurd hnone (by simp)
      · intro v2 hv2
        have : u2 = v2 := by injection hv2
        rw [← this]
      · intro hnone
        exact absurd hnone (by simp)
      · intro hcon
        rw [hgu, hf1] at hcon
        exact absurd hcon.1 (by simp)



/-- C6 witness: the theorem applied at the one-user sample database. -/
theorem claim_C6_cascading_delete_witness :
    ((delete_user_all sampleDB 7).1.users
      = sampleDB.users.filter (fun u => !(u.telegram_id == 7)))
    ∧ ((delete_user_all sampleDB 7).1.users2
      = sampleDB.users2.filter (fun u => !(u.telegram_id == 7)))
    ∧ (∀ u, get_user_by_telegram_id sampleDB 7 = some u →
        (delete_user_all sampleDB 7).1.attendance
          = sampleDB.attendance.filter (fun a => !(a.user_id == u.id))
        ∧ (delete_user_all sampleDB 7).1.registrations
          = sampleDB.registrations.filter (fun r => !(r.user_id == u.id)))
    ∧ (get_user_by_telegram_id sampleDB 7 = none →
        (delete_user_all sampleDB 7).1.attendance = sampleDB.attendance
        ∧ (delete_user_all sampleDB 7).1.registrations = sampleDB.registrations)
    ∧ (∀ u2, sampleDB.users2.find? (fun x => x.telegram_id == 7) = some u2 →
        (delete_user_all sampleDB 7).1.sessions
          = sampleDB.sessions.filter (fun s => !(s.user_id == u2.id)))
    ∧ (sampleDB.users2.find? (fun x => x.telegram_id == 7) = none →
        (delete_user_all sampleDB 7).1.sessions = sampleDB.sessions)
    ∧ ((get_user_by_telegram_id sampleDB 7 = none
        ∧ sampleDB.users2.find? (fun x => x.telegram_id == 7) = none) →
        (delete_user_all sampleDB 7).1 = sampleDB ∧ (delete_user_all sampleDB 7).2 = false) :=
  claim_C6_cascading_delete sampleDB 7 (by decide) (by decide) (by decide) (by decide)


theorem maxById_mem {l : List SessionRow} {s : SessionRow} (h : maxById l = some s) :
    s ∈ l := by
  induction l with
  | nil => simp [maxById] at h
  | cons a rest ih =>
    simp only [maxById] at h
    cases hr : maxById rest with
    | none =>
      rw [hr] at h
      injection h with h
      rw [← h]
      exact List.mem_cons_self a rest
    | some t =>
      rw [hr] at h
      dsimp only at h
      by_cases hgt : a.id > t.id
      · rw [if_pos hgt] at h
        injection h with h
        rw [← h]
        exact List.mem_cons_self a rest
      · rw [if_neg hgt] at h
        injection h with h
        rw [h] at hr
        exact List.mem_cons_of_mem a (ih hr)

theorem get_open_session_open (db : DB) (uid : Int) (s : SessionRow)
    (h : get_open_session db uid = some s) : s ∈ db.sessions ∧ s.end_time = none := by
  unfold get_open_session at h
  have hmem := maxById_mem h
  have hfilter := List.mem_filter.mp hmem
  refine ⟨hfilter.1, ?_⟩
  have hp := hfilter.2
  simp only [Bool.and_eq_true] at hp
  exact Option.isNone_iff_eq_none.mp hp.2

/-- C5: whenever the live coordinates are farther from the workplace
center than the radius, the checkout handler leaves the database
untouched (close_session is never invoked, so any open session keeps its
absent end_time), never returns the closed outcome, and every outcome it
can return is one of the rejection replies — the geofence one carrying
the measured distance. -/
theorem claim_C5_geofence_rejects (d : ℝ → ℝ → ℝ → ℝ → ℝ) (db : DB) (uid : Int)
    (today : String) (nowHour : Int) (now : ℚ) (parse_dt : String → ℚ) (nowIso : String)
    (lat lon : ℝ) (checkout_deadline : Int) (min_work_hours : ℚ) (wlat wlon wradius : ℝ)
    (hfar : d wlat wlon lat lon > wradius) :
    (handle_checkout d db uid today nowHour now parse_dt nowIso lat lon
        checkout_deadline min_work_hours wlat wlon wradius).1 = db
    ∧ (∀ sid, (handle_checkout d db uid today nowHour now parse_dt nowIso lat lon
        checkout_deadline min_work_hours wlat wlon wradius).2 ≠ CheckoutResult.closed sid)
    ∧ ((handle_checkout d db uid today nowHour now parse_dt nowIso lat lon
          checkout_deadline min_work_hours wlat wlon wradius).2 = CheckoutResult.gpsInvalid
        ∨ (handle_checkout d db uid today nowHour now parse_dt nowIso lat lon
          checkout_deadline min_work_hours wlat wlon wradius).2 = CheckoutResult.noOpenSession
        ∨ (handle_checkout d db uid today nowHour now parse_dt nowIso lat lon
          checkout_deadline min_work_hours wlat wlon wradius).2 = CheckoutResult.alreadyClosed
        ∨ (handle_checkout d db uid today nowHour now parse_dt nowIso lat lon
          checkout_deadline min_work_hours wlat wlon wradius).2 = CheckoutResult.pastDeadline
        ∨ (handle_checkout d db uid today nowHour now parse_dt nowIso lat lon
          checkout_deadline min_work_hours wlat wlon wradius).2
            = CheckoutResult.belowMinDuration
        ∨ (handle_checkout d db uid today nowHour now parse_dt nowIso lat lon
          checkout_deadline min_work_hours wlat wlon wradius).2
            = CheckoutResult.outsideWorkplace (d wlat wlon lat lon))
    ∧ (∀ s, get_open_session db uid = some s →
        s ∈ (handle_checkout d db uid today nowHour now parse_dt nowIso lat lon
          checkout_deadline min_work_hours wlat wlon wradius).1.sessions
        ∧ s.end_time = none) := by
  have key : ∃ r, handle_checkout d db uid today nowHour now parse_dt nowIso lat lon
      checkout_deadline min_work_hours wlat wlon wradius = (db, r)
      ∧ (r = CheckoutResult.gpsInvalid ∨ r = CheckoutResult.noOpenSession
        ∨ r = CheckoutResult.alreadyClosed ∨ r = CheckoutResult.pastDeadline
        ∨ r = CheckoutResult.belowMinDuration
        ∨ r = CheckoutResult.outsideWorkplace (d wlat wlon lat lon)) := by
    by_cases h0 : lat = 0 ∧ lon = 0
    · refine ⟨CheckoutResult.gpsInvalid, ?_, Or.inl rfl⟩
      unfold handle_checkout
      rw [if_pos h0]
    · cases hsess : get_open_session db uid with
      | none =>
        refine ⟨CheckoutResult.noOpenSession, ?_, Or.inr (Or.inl rfl)⟩
        unfold handle_checkout
        rw [if_neg h0, hsess]
      | some sess =>
        by_cases hclosed : (match get_user_session_on_date db uid today with
            | some ts => pyTruthy ts.end_time
            | none => false) = true
        · refine ⟨CheckoutResult.alreadyClosed, ?_, Or.inr (Or.inr (Or.inl rfl))⟩
          unfold handle_checkout
          rw [if_neg h0, hsess]
          dsimp only
          rw [if_pos hclosed]
        · by_cases hdl : nowHour ≥ checkout_deadline
          · refine ⟨CheckoutResult.pastDeadline, ?_, Or.inr (Or.inr (Or.inr (Or.inl rfl)))⟩
            unfold handle_checkout
            rw [if_neg h0, hsess]
            dsimp only
            rw [if_neg hclosed, if_pos hdl]
          · by_cases hmin : (now - parse_dt sess.start_time) / 3600 < min_work_hours
            · refine ⟨CheckoutResult.belowMinDuration, ?_,
                Or.inr (Or.inr (Or.inr (Or.inr (Or.inl rfl))))⟩
              unfold handle_checkout
              rw [if_neg h0, hsess]
              dsimp only
              rw [if_neg hclosed, if_neg hdl, if_pos hmin]
            · refine ⟨CheckoutResult.outsideWorkplace (d wlat wlon lat lon), ?_,
                Or.inr (Or.inr (Or.inr (Or.inr (Or.inr rfl))))⟩
              unfold handle_checkout
              rw [if_neg h0, hsess]
              dsimp only
              rw [if_neg hclosed, if_neg hdl, if_neg hmin, if_pos hfar]
  obtain ⟨r, e, hr⟩ := key
  rw [e]
  refine ⟨rfl, ?_, by simpa using hr, fun s hs =>
    ⟨(get_open_session_open db uid s hs).1, (get_open_session_open db uid s hs).2⟩⟩
  intro sid hcl
  rcases hr with h | h | h | h | h | h <;> rw [h] at hcl <;> exact CheckoutResult.noConfusion hcl

/-- C5 witness: the theorem applied at a constant distance function that
reports 1000 m against a 300 m radius, on the empty sample database. -/
theorem claim_C5_geofence_rejects_witness :
    (handle_checkout (fun _ _ _ _ => 1000) sampleDB 1 "2024-01-02" 12 43200 (fun _ => 32400)
        "2024-01-02 12:00:00" 40.4 49.8 19 6 40.4093 49.8671 300).1 = sampleDB
    ∧ (∀ sid, (handle_checkout (fun _ _ _ _ => 1000) sampleDB 1 "2024-01-02" 12 43200
        (fun _ => 32400) "2024-01-02 12:00:00" 40.4 49.8 19 6 40.4093 49.8671 300).2
        ≠ CheckoutResult.closed sid) :=
  ⟨(claim_C5_geofence_rejects (fun _ _ _ _ => 1000) sampleDB 1 "2024-01-02" 12 43200
      (fun _ => 32400) "2024-01-02 12:00:00" 40.4 49.8 19 6 40.4093 49.8671 300
      (by norm_num)).1,
   (claim_C5_geofence_rejects (fun _ _ _ _ => 1000) sampleDB 1 "2024-01-02" 12 43200
      (fun _ => 32400) "2024-01-02 12:00:00" 40.4 49.8 19 6 40.4093 49.8671 300
      (by norm_num)).2.1⟩


end Tgg

namespace Tgg

theorem pySplit_ne_nil (sep : Char) (l : List Char) : pySplit sep l ≠ [] := by
  cases l with
  | nil => simp [pySplit]
  | cons c rest =>
    simp only [pySplit]
    by_cases h : c = sep
    · simp [h]
    · rw [if_neg h]
      cases hr : pySplit sep rest with
      | nil => simp
      | cons a t => simp

theorem pySplit_append_cons (sep : Char) (a b : List Char) :
    pySplit sep (a ++ sep :: b) = pySplit sep a ++ pySplit sep b := by
  induction a with
  | nil => simp [pySplit]
  | cons c t ih =>
    simp only [List.cons_append, pySplit, List.append_eq]
    rw [ih]
    by_cases h : c = sep
    · rw [if_pos h, if_pos h]
      simp
    · rw [if_neg h, if_neg h]
      cases ht : pySplit sep t with
      | nil => exact absurd ht (pySplit_ne_nil sep t)
      | cons x xs => simp

theorem pySplit_no_sep (sep : Char) (l : List Char) (h : sep ∉ l) :
    pySplit sep l = [l] := by
  induction l with
  | nil => simp [pySplit]
  | cons c t ih =>
    simp only [List.mem_cons, not_or] at h
    simp only [pySplit]
    rw [if_neg (fun hc => h.1 hc.symm)]
    rw [ih h.2]

theorem pySplit_dropWhile_subset (sep : Char) (x : List Char) :
    ∀ l ∈ pySplit sep (x.dropWhile (fun c => c = sep)), l ∈ pySplit sep x := by
  induction x with
  | nil => intro l hl; simpa using hl
  | cons c t ih =>
    intro l hl
    by_cases h : c = sep
    · rw [List.dropWhile_cons_of_pos (by simp [h])] at hl
      have hmem := ih l hl
      subst h
      simp only [pySplit, if_pos rfl]
      exact List.mem_cons_of_mem _ hmem
    · rw [List.dropWhile_cons_of_neg (by simp [h])] at hl
      exact hl

theorem rfindNl_none_iff (l : List Char) : rfindNl l = none ↔ '\n' ∉ l := by
  induction l with
  | nil => simp [rfindNl]
  | cons c t ih =>
    simp only [rfindNl]
    cases ht : rfindNl t with
    | some i =>
      dsimp only
      constructor
      · intro hcontra
        exact absurd hcontra (by simp)
      · intro hno
        have h2 : rfindNl t = none := ih.mpr (fun hm => hno (List.mem_cons_of_mem c hm))
        rw [h2] at ht
        exact absurd ht (by simp)
    | none =>
      dsimp only
      by_cases h : c = '\n'
      · rw [if_pos h]
        constructor
        · intro hc
          exact absurd hc (by simp)
        · intro hno
          exact absurd (by rw [h]; exact List.mem_cons_self '\n' t) hno
      · rw [if_neg h]
        constructor
        · intro _
          intro hor
          rcases List.mem_cons.mp hor with he | hm
          · exact h he.symm
          · exact (ih.mp ht) hm
        · intro _
          rfl

theorem rfindNl_some_split (l : List Char) (i : Nat) (h : rfindNl l = some i) :
    ∃ a b, l = a ++ '\n' :: b ∧ a.length = i ∧ '\n' ∉ b := by
  induction l generalizing i with
  | nil => simp [rfindNl] at h
  | cons c t ih =>
    simp only [rfindNl] at h
    cases ht : rfindNl t with
    | some j =>
      rw [ht] at h
      dsimp only at h
      injection h with h
      obtain ⟨a, b, hab, hlen, hnb⟩ := ih j ht
      exact ⟨c :: a, b, by rw [hab]; rfl, by simp [hlen, ← h], hnb⟩
    | none =>
      rw [ht] at h
      dsimp only at h
      by_cases hc : c = '\n'
      · rw [if_pos hc] at h
        injection h with h
        refine ⟨[], t, by rw [hc]; rfl, by simp [← h], (rfindNl_none_iff t).mp ht⟩
      · rw [if_neg hc] at h
        exact absurd h (by simp)


theorem pySplit_head (sep : Char) (l : List Char) :
    ∃ rest, pySplit sep l = (l.takeWhile (fun c => c != sep)) :: rest := by
  induction l with
  | nil => exact ⟨[], rfl⟩
  | cons c t ih =>
    by_cases h : c = sep
    · refine ⟨pySplit sep t, ?_⟩
      rw [List.takeWhile_cons_of_neg (by simp [h])]
      simp only [pySplit, if_pos h]
    · obtain ⟨rest, hrest⟩ := ih
      refine ⟨rest, ?_⟩
      rw [List.takeWhile_cons_of_pos (by simp [h])]
      simp only [pySplit, if_neg h]
      rw [hrest]

theorem takeWhile_append_of_all {p : Char → Bool} (a x : List Char)
    (h : ∀ c ∈ a, p c = true) : (a ++ x).takeWhile p = a ++ x.takeWhile p := by
  induction a with
  | nil => rfl
  | cons c t ih =>
    rw [List.cons_append, List.takeWhile_cons_of_pos (h c (List.mem_cons_self c t))]
    rw [ih (fun d hd => h d (List.mem_cons_of_mem c hd))]
    rfl

theorem chunkSendAux_nil (fuel : Nat) : chunkSendAux fuel [] = [] := by
  cases fuel with
  | zero => rfl
  | succ n => simp [chunkSendAux]

theorem chunkAux_sound (fuel : Nat) : ∀ (s : List Char), s.length ≤ fuel →
    (∀ l ∈ pySplit '\n' s, l.length ≤ TG_CHUNK_LIMIT) →
    ∀ c ∈ chunkSendAux fuel s,
      c.length ≤ TG_CHUNK_LIMIT ∧ ∀ l ∈ pySplit '\n' c, l ∈ pySplit '\n' s := by
  induction fuel with
  | zero =>
    intro s _ _ c hc
    simp [chunkSendAux] at hc
  | succ n ih =>
    intro s hlen hlines c hc
    by_cases hs : s = []
    · rw [hs] at hc
      simp [chunkSendAux] at hc
    · simp only [chunkSendAux, if_neg hs] at hc
      cases hr : rfindNl (s.take TG_CHUNK_LIMIT) with
      | some i =>
        rw [hr] at hc
        dsimp only at hc
        obtain ⟨a, b, hab, halen, hnb⟩ := rfindNl_some_split _ i hr
        have hsplit : s = a ++ '\n' :: (b ++ s.drop TG_CHUNK_LIMIT) := by
          conv_lhs => rw [← List.take_append_drop TG_CHUNK_LIMIT s]
          rw [hab]
          simp
        have htake : s.take i = a := by
          conv_lhs => rw [← halen, hsplit]
          exact List.take_left a _
        have hdrop : s.drop i = '\n' :: (b ++ s.drop TG_CHUNK_LIMIT) := by
          conv_lhs => rw [← halen, hsplit]
          exact List.drop_left a _
        have hlines_eq : pySplit '\n' s
            = pySplit '\n' a ++ pySplit '\n' (b ++ s.drop TG_CHUNK_LIMIT) := by
          conv_lhs => rw [hsplit]
          exact pySplit_append_cons '\n' a _
        have hs' : (s.drop i).dropWhile (fun c => c = '\n')
            = (b ++ s.drop TG_CHUNK_LIMIT).dropWhile (fun c => c = '\n') := by
          rw [hdrop, List.dropWhile_cons_of_pos (by simp)]
        have hchunklen : (s.take TG_CHUNK_LIMIT).length = a.length + (b.length + 1) := by
          rw [hab, List.length_append, List.length_cons]
        have hchunkle : (s.take TG_CHUNK_LIMIT).length ≤ TG_CHUNK_LIMIT := by
          rw [List.length_take]
          omega
        rcases List.mem_cons.mp hc with hceq | hcrec
        · rw [htake] at hceq
          subst hceq
          refine ⟨by omega, ?_⟩
          intro l hl
          rw [hlines_eq]
          exact List.mem_append_left _ hl
        · have hlen' : ((s.drop i).dropWhile (fun c => c = '\n')).length ≤ n := by
            rw [hs']
            have h1 : ((b ++ s.drop TG_CHUNK_LIMIT).dropWhile (fun c => c = '\n')).length
                ≤ (b ++ s.drop TG_CHUNK_LIMIT).length :=
              (List.dropWhile_sublist _).length_le
            have h2 : (b ++ s.drop TG_CHUNK_LIMIT).length + (a.length + 1) = s.length := by
              conv_rhs => rw [hsplit, List.length_append, List.length_cons]
              omega
            generalize hg : (b ++ s.drop TG_CHUNK_LIMIT).length = M at h1 h2
            omega
          have hlines' : ∀ l ∈ pySplit '\n' ((s.drop i).dropWhile (fun c => c = '\n')),
              l.length ≤ TG_CHUNK_LIMIT := by
            intro l hl
            apply hlines
            rw [hlines_eq]
            apply List.mem_append_right
            rw [hs'] at hl
            exact pySplit_dropWhile_subset '\n' _ l hl
          obtain ⟨h1, h2⟩ := ih _ hlen' hlines' c hcrec
          refine ⟨h1, fun l hl => ?_⟩
          rw [hlines_eq]
          apply List.mem_append_right
          have h3 := h2 l hl
          rw [hs'] at h3
          exact pySplit_dropWhile_subset '\n' _ l h3
      | none =>
        rw [hr] at hc
        dsimp only at hc
        have hnochunk : '\n' ∉ s.take TG_CHUNK_LIMIT := (rfindNl_none_iff _).mp hr
        by_cases hlong : s.length ≤ TG_CHUNK_LIMIT
        · have hchunk : s.take TG_CHUNK_LIMIT = s := List.take_of_length_le hlong
          rw [hchunk] at hc
          rw [List.take_length, List.drop_length] at hc
          simp only [List.dropWhile_nil, chunkSendAux_nil] at hc
          rcases List.mem_cons.mp hc with hceq | hcrec
          · subst hceq
            exact ⟨hlong, fun l hl => hl⟩
          · simp at hcrec
        · push_neg at hlong
          obtain ⟨rest0, hhead⟩ := pySplit_head '\n' s
          have hfl_len : (s.takeWhile (fun c => c != '\n')).length ≤ TG_CHUNK_LIMIT :=
            hlines _ (by rw [hhead]; exact List.mem_cons_self _ _)
          have hallp : ∀ c ∈ s.take TG_CHUNK_LIMIT, (c != '\n') = true := by
            intro c hcin
            simp only [bne_iff_ne]
            intro he
            exact hnochunk (he ▸ hcin)
          have htw : s.takeWhile (fun c => c != '\n')
              = s.take TG_CHUNK_LIMIT
                ++ (s.drop TG_CHUNK_LIMIT).takeWhile (fun c => c != '\n') := by
            conv_lhs => rw [← List.take_append_drop TG_CHUNK_LIMIT s]
            exact takeWhile_append_of_all _ _ hallp
          have hlen_take : (s.take TG_CHUNK_LIMIT).length = TG_CHUNK_LIMIT := by
            rw [List.length_take]
            omega
          have hdw_nil : (s.drop TG_CHUNK_LIMIT).takeWhile (fun c => c != '\n') = [] := by
            have hlt := congrArg List.length htw
            rw [List.length_append, hlen_take] at hlt
            apply List.length_eq_zero.mp
            omega
          obtain ⟨h0, t0, hdropeq⟩ : ∃ h0 t0, s.drop TG_CHUNK_LIMIT = h0 :: t0 := by
            cases hd : s.drop TG_CHUNK_LIMIT with
            | nil =>
              have h4 := congrArg List.length hd
              rw [List.length_drop] at h4
              simp at h4
              omega
            | cons x y => exact ⟨x, y, rfl⟩
          have hh0 : h0 = '\n' := by
            rw [hdropeq] at hdw_nil
            by_cases hx : (h0 != '\n') = true
            · have hrw := @List.takeWhile_cons_of_pos Char (fun c => c != '\n') h0 t0 hx
              rw [hrw] at hdw_nil
              exact absurd hdw_nil (by simp)
            · simpa [bne_iff_ne] using hx
          have hsplit : s = s.take TG_CHUNK_LIMIT ++ '\n' :: t0 := by
            conv_lhs => rw [← List.take_append_drop TG_CHUNK_LIMIT s]
            rw [hdropeq, hh0]
          have hlines_eq : pySplit '\n' s
              = pySplit '\n' (s.take TG_CHUNK_LIMIT) ++ pySplit '\n' t0 := by
            conv_lhs => rw [hsplit]
            exact pySplit_append_cons '\n' _ _
          have hpchunk : pySplit '\n' (s.take TG_CHUNK_LIMIT) = [s.take TG_CHUNK_LIMIT] :=
            pySplit_no_sep '\n' _ hnochunk
          rw [hlen_take] at hc
          have hs' : (s.drop TG_CHUNK_LIMIT).dropWhile (fun c => c = '\n')
              = t0.dropWhile (fun c => c = '\n') := by
            rw [hdropeq, hh0, List.dropWhile_cons_of_pos (by simp)]
          rcases List.mem_cons.mp hc with hceq | hcrec
          · subst hceq
            refine ⟨by rw [hlen_take], ?_⟩
            intro l hl
            rw [hpchunk] at hl
            rw [hlines_eq, hpchunk]
            exact List.mem_append_left _ hl
          · have hslen : s.length = TG_CHUNK_LIMIT + 1 + t0.length := by
              have h5 := congrArg List.length hsplit
              rw [List.length_append, hlen_take] at h5
              simp at h5
              omega
            have hlen' : ((s.drop TG_CHUNK_LIMIT).dropWhile (fun c => c = '\n')).length ≤ n := by
              rw [hs']
              have h1 : (t0.dropWhile (fun c => c = '\n')).length ≤ t0.length :=
                (List.dropWhile_sublist _).length_le
              have hL : 0 < TG_CHUNK_LIMIT := by norm_num [TG_CHUNK_LIMIT]
              omega
            have hlines' : ∀ l ∈ pySplit '\n'
                ((s.drop TG_CHUNK_LIMIT).dropWhile (fun c => c = '\n')),
                l.length ≤ TG_CHUNK_LIMIT := by
              intro l hl
              apply hlines
              rw [hlines_eq]
              apply List.mem_append_right
              rw [hs'] at hl
              exact pySplit_dropWhile_subset '\n' _ l hl
            obtain ⟨h1, h2⟩ := ih _ hlen' hlines' c hcrec
            refine ⟨h1, fun l hl => ?_⟩
            rw [hlines_eq]
            apply List.mem_append_right
            have h3 := h2 l hl
            rw [hs'] at h3
            exact pySplit_dropWhile_subset '\n' _ l h3

theorem chunkSendAux_step_none (fuel : Nat) (s chunk : List Char) (hs : ¬ s = [])
    (hchunk : s.take TG_CHUNK_LIMIT = chunk) (hrf : rfindNl chunk = none) :
    chunkSendAux (fuel + 1) s
      = s.take chunk.length
        :: chunkSendAux fuel ((s.drop chunk.length).dropWhile (fun c => c = '\n')) := by
  simp only [chunkSendAux, if_neg hs, hchunk, hrf]

/-- Claim C9, counterexample: the 3501-character single-line text of the
letter a exceeds the 3500-character limit and consists of one line, yet
`chunk_send` cuts it mid-line into a 3500-character piece and a
1-character piece, so its only line is split across two messages and
appears in neither. -/
theorem claim_C9_counterexample :
    TG_CHUNK_LIMIT < (List.replicate 3501 'a').length
    ∧ pySplit '\n' (List.replicate 3501 'a') = [List.replicate 3501 'a']
    ∧ chunk_send (List.replicate 3501 'a') = [List.replicate 3500 'a', ['a']]
    ∧ List.replicate 3501 'a' ∉ chunk_send (List.replicate 3501 'a') := by
  have hTL : TG_CHUNK_LIMIT = 3500 := rfl
  have hnl : '\n' ∉ List.replicate 3501 'a' := by
    intro hm
    exact absurd (List.eq_of_mem_replicate hm) (by decide)
  have htake : (List.replicate 3501 'a').take TG_CHUNK_LIMIT
      = List.replicate 3500 'a' := by
    rw [hTL, List.take_replicate]
    norm_num
  have hrf1 : rfindNl (List.replicate 3500 'a') = none :=
    (rfindNl_none_iff _).mpr
      (fun hm => absurd (List.eq_of_mem_replicate hm) (by decide))
  have hdrop : (List.replicate 3501 'a').drop 3500 = ['a'] := by
    rw [List.drop_replicate]
    norm_num
  have hne : ¬ (List.replicate 3501 'a') = [] := by
    intro h0
    have h1 := congrArg List.length h0
    rw [List.length_replicate, List.length_nil] at h1
    exact absurd h1 (by norm_num)
  have step1 := chunkSendAux_step_none 3500 (List.replicate 3501 'a')
    (List.replicate 3500 'a') hne htake hrf1
  rw [List.length_replicate, hdrop] at step1
  have htake' : (List.replicate 3501 'a').take 3500 = List.replicate 3500 'a' := by
    rw [← hTL]
    exact htake
  rw [htake'] at step1
  have hdw : List.dropWhile (fun c => decide (c = '\n')) ['a'] = ['a'] := rfl
  rw [hdw] at step1
  have step2 : chunkSendAux 3500 ['a'] = [['a']] := by
    have h := chunkSendAux_step_none 3499 ['a'] ['a'] (by simp)
      (by rw [hTL]; decide) rfl
    simpa [chunkSendAux_nil] using h
  have hchunks : chunk_send (List.replicate 3501 'a')
      = [List.replicate 3500 'a', ['a']] := by
    rw [chunk_send, List.length_replicate]
    rw [show (3501 : Nat) = 3500 + 1 from rfl]
    rw [step1, step2]
  refine ⟨by rw [List.length_replicate, hTL]; norm_num,
    pySplit_no_sep '\n' _ hnl, hchunks, ?_⟩
  rw [hchunks]
  intro hmem
  simp only [List.mem_cons, List.not_mem_nil, or_false] at hmem
  rcases hmem with h | h
  · have h1 := congrArg List.length h
    rw [List.length_replicate, List.length_replicate] at h1
    exact absurd h1 (by norm_num)
  · have h1 := congrArg List.length h
    rw [List.length_replicate] at h1
    simp at h1

/-- Claim C9, amended: every message `chunk_send` yields has at most
`TG_CHUNK_LIMIT` characters, and when every line of the original text
fits within the limit, every line of every emitted chunk is a line of
the original text, so no such line is split across two messages. (The
original claim fails for over-long lines, which are cut mid-line: see
the counterexample.) -/
theorem claim_C9_amended (s : List Char)
    (h : ∀ l ∈ pySplit '\n' s, l.length ≤ TG_CHUNK_LIMIT) :
    ∀ c ∈ chunk_send s,
      c.length ≤ TG_CHUNK_LIMIT ∧ ∀ l ∈ pySplit '\n' c, l ∈ pySplit '\n' s := by
  intro c hc
  exact chunkAux_sound s.length s (Nat.le_refl _) h c hc

theorem claim_C9_amended_witness :
    (∀ l ∈ pySplit '\n' ['a', 'b', '\n', 'c', 'd'], l.length ≤ TG_CHUNK_LIMIT)
    ∧ ∀ c ∈ chunk_send ['a', 'b', '\n', 'c', 'd'],
        c.length ≤ TG_CHUNK_LIMIT
        ∧ ∀ l ∈ pySplit '\n' c, l ∈ pySplit '\n' ['a', 'b', '\n', 'c', 'd'] :=
  ⟨by decide, claim_C9_amended ['a', 'b', '\n', 'c', 'd'] (by decide)⟩

end Tgg
